import Mathlib

/-!
Shallow embedding of the FlowForge durable workflow orchestrator
(registry, persistence, engine, compensator) together with theorems
about its persistence guards, compensation ordering and the
event-driven saga state machine.

The data model follows `src/workflows/types.ts`; the persistence
operations follow `src/services/workflow-persistence.ts`; the engine
follows `src/workflows/engine.ts` and the compensator follows
`src/workflows/compensator.ts`.  Timestamps are modelled as natural
numbers (ISO timestamps in the source are used only for ordering and
equality), contexts as association lists of string keys (JS object
spread becomes an update-or-append merge), and the grouped key-value
state store as association lists per group.
-/

namespace FlowForge

-- ============================================================================
-- Basic data model (src/workflows/types.ts)
-- ============================================================================

/-- Opaque context values (the source uses untyped JSON values). -/
inductive Value where
  | str (s : String)
  | num (n : Int)
  | boolean (b : Bool)
deriving Repr, DecidableEq

/-- A JS object used as context: ordered string-keyed association list. -/
abbrev Ctx := List (String × Value)

inductive WorkflowStatus where
  | running
  | waiting
  | failed
  | completed
  | compensating
  | compensated
deriving Repr, DecidableEq

inductive StepStatus where
  | pending
  | running
  | completed
  | failed
  | skipped
  | compensated
deriving Repr, DecidableEq

inductive CompResult where
  | success
  | failed
deriving Repr, DecidableEq

structure WorkflowInstance where
  id : String
  type : String
  status : WorkflowStatus
  currentStep : Option String
  context : Ctx
  failedStep : Option String := none
  error : Option String := none
  createdAt : Nat
  updatedAt : Nat
deriving Repr, DecidableEq

structure StepError where
  message : String
  code : Option String := none
  stack : Option String := none
deriving Repr, DecidableEq

structure StepExecution where
  workflowId : String
  stepName : String
  status : StepStatus
  input : Ctx
  output : Option Ctx := none
  error : Option StepError := none
  startedAt : Nat
  completedAt : Option Nat := none
  attempt : Nat
deriving Repr, DecidableEq

structure CompensationRecord where
  workflowId : String
  stepName : String
  compensationStep : String
  registeredAt : Nat
  executed : Bool
  executedAt : Option Nat := none
  result : Option CompResult := none
  error : Option String := none
deriving Repr, DecidableEq

structure StepDefinition where
  name : String
  compensation : Option String := none
  topic : String
deriving Repr, DecidableEq

structure WorkflowDefinition where
  type : String
  steps : List StepDefinition
deriving Repr, DecidableEq

-- ============================================================================
-- Association-list groups (the Motia state manager by (groupId, key))
-- ============================================================================

namespace Group

/-- Lookup of the first binding of a key (models `state.get(group, key)`). -/
def get {α : Type} : List (String × α) → String → Option α
  | [], _ => none
  | (k, v) :: rest, key => if k = key then some v else get rest key

/-- Update-in-place of the first binding, or append (models `state.set`). -/
def set {α : Type} : List (String × α) → String → α → List (String × α)
  | [], key, v => [(key, v)]
  | (k, w) :: rest, key, v =>
    if k = key then (k, v) :: rest else (k, w) :: set rest key v

end Group

/-- Merge two contexts the way JS object spread does. -/
def mergeCtx (a b : Ctx) : Ctx :=
  b.foldl (fun acc kv => Group.set acc kv.1 kv.2) a

-- ============================================================================
-- The grouped state store used by the persistence layer
-- ============================================================================

structure Store where
  workflows : List (String × WorkflowInstance)
  stepGroups : List (String × List (String × StepExecution))
  compGroups : List (String × List (String × CompensationRecord))
deriving Repr, DecidableEq

def emptyStore : Store := { workflows := [], stepGroups := [], compGroups := [] }

namespace Store

def getWf (st : Store) (workflowId : String) : Option WorkflowInstance :=
  Group.get st.workflows workflowId

def setWf (st : Store) (workflowId : String) (w : WorkflowInstance) : Store :=
  { st with workflows := Group.set st.workflows workflowId w }

def stepsOf (st : Store) (workflowId : String) : List (String × StepExecution) :=
  (Group.get st.stepGroups workflowId).getD []

def getStep (st : Store) (workflowId stepName : String) : Option StepExecution :=
  Group.get (st.stepsOf workflowId) stepName

def setStep (st : Store) (workflowId stepName : String) (e : StepExecution) : Store :=
  { st with stepGroups :=
      Group.set st.stepGroups workflowId (Group.set (st.stepsOf workflowId) stepName e) }

def compsOf (st : Store) (workflowId : String) : List (String × CompensationRecord) :=
  (Group.get st.compGroups workflowId).getD []

def getComp (st : Store) (workflowId stepName : String) : Option CompensationRecord :=
  Group.get (st.compsOf workflowId) stepName

def setComp (st : Store) (workflowId stepName : String) (c : CompensationRecord) : Store :=
  { st with compGroups :=
      Group.set st.compGroups workflowId (Group.set (st.compsOf workflowId) stepName c) }

end Store

-- ============================================================================
-- Status predicates (src/services/workflow-persistence.ts, lines 48-70)
-- ============================================================================

/-- ADVANCEABLE_STATUSES contains exactly the status running. -/
def canAdvance : WorkflowStatus → Bool
  | .running => true
  | _ => false

/-- TERMINAL_STATUSES are completed, compensated and failed. -/
def isTerminal : WorkflowStatus → Bool
  | .completed => true
  | .compensated => true
  | .failed => true
  | _ => false

/-- TERMINAL_STEP_STATUSES are completed, failed, skipped and compensated. -/
def isStepTerminal : StepStatus → Bool
  | .completed => true
  | .failed => true
  | .skipped => true
  | .compensated => true
  | _ => false

-- ============================================================================
-- Workflow instance operations (workflow-persistence.ts)
-- ============================================================================

/-- Source `createWorkflow`: builds a fresh running instance and writes it
with `state.set`, without reading the store first. -/
def createWorkflow (st : Store) (t : Nat) (id ty initialStep : String)
    (context : Ctx) : Store × WorkflowInstance :=
  let workflow : WorkflowInstance :=
    { id := id, type := ty, status := .running, currentStep := some initialStep,
      context := context, failedStep := none, error := none,
      createdAt := t, updatedAt := t }
  (st.setWf id workflow, workflow)

/-- Source `getWorkflow`. -/
def getWorkflow (st : Store) (workflowId : String) : Option WorkflowInstance :=
  st.getWf workflowId

/-- Optional fields passed to `updateWorkflowStatus`.  A field is `none` when
the JS caller leaves it `undefined`; `currentStep := some none` models an
explicit `currentStep: null`. -/
structure StatusUpdates where
  currentStep : Option (Option String) := none
  context : Option Ctx := none
  failedStep : Option String := none
  error : Option String := none
deriving Repr, DecidableEq

/-- Source `updateWorkflowStatus`: reads the instance (returning null when it
does not exist), merges the optional fields, clears `currentStep` when the new
status is terminal and no explicit value is given, always applies `status`
last, and writes the result back. -/
def updateWorkflowStatus (st : Store) (t : Nat) (workflowId : String)
    (status : WorkflowStatus) (updates : StatusUpdates) :
    Store × Option WorkflowInstance :=
  match st.getWf workflowId with
  | none => (st, none)
  | some workflow =>
    let shouldClearCurrentStep := isTerminal status
    let updated : WorkflowInstance :=
      { workflow with
        context :=
          match updates.context with
          | some c => mergeCtx workflow.context c
          | none => workflow.context
        failedStep :=
          match updates.failedStep with
          | some f => some f
          | none => workflow.failedStep
        error :=
          match updates.error with
          | some e => some e
          | none => workflow.error
        currentStep :=
          match updates.currentStep with
          | some cs => cs
          | none => if shouldClearCurrentStep then none else workflow.currentStep
        status := status
        updatedAt := t }
    (st.setWf workflowId updated, some updated)

/-- Source `updateWorkflowContext`: guarded against terminal workflows. -/
def updateWorkflowContext (st : Store) (t : Nat) (workflowId : String)
    (contextUpdates : Ctx) : Store × Option WorkflowInstance :=
  match st.getWf workflowId with
  | none => (st, none)
  | some workflow =>
    if isTerminal workflow.status then (st, none)
    else
      let updated : WorkflowInstance :=
        { workflow with
          context := mergeCtx workflow.context contextUpdates
          updatedAt := t }
      (st.setWf workflowId updated, some updated)

/-- Source `advanceToStep`: guarded so that only running workflows advance. -/
def advanceToStep (st : Store) (t : Nat) (workflowId nextStep : String)
    (contextUpdates : Option Ctx) : Store × Option WorkflowInstance :=
  match st.getWf workflowId with
  | none => (st, none)
  | some workflow =>
    if ¬ canAdvance workflow.status then (st, none)
    else
      let updated : WorkflowInstance :=
        { workflow with
          currentStep := some nextStep
          context :=
            match contextUpdates with
            | some c => mergeCtx workflow.context c
            | none => workflow.context
          updatedAt := t }
      (st.setWf workflowId updated, some updated)

-- ============================================================================
-- Step execution operations (workflow-persistence.ts)
-- ============================================================================

/-- Source `recordStepStart`: idempotent create, returns `(execution, isNew)`. -/
def recordStepStart (st : Store) (t : Nat) (workflowId stepName : String)
    (input : Ctx) (attempt : Option Nat) : Store × StepExecution × Bool :=
  match st.getStep workflowId stepName with
  | some existing => (st, existing, false)
  | none =>
    let execution : StepExecution :=
      { workflowId := workflowId, stepName := stepName, status := .running,
        input := input, output := none, error := none,
        startedAt := t, completedAt := none, attempt := attempt.getD 1 }
    (st.setStep workflowId stepName execution, execution, true)

/-- Source `recordStepComplete`: returns the stored record unchanged when it
is already terminal, otherwise transitions it to completed. -/
def recordStepComplete (st : Store) (t : Nat) (workflowId stepName : String)
    (output : Ctx) : Store × Option StepExecution :=
  match st.getStep workflowId stepName with
  | none => (st, none)
  | some execution =>
    if isStepTerminal execution.status then (st, some execution)
    else
      let updated : StepExecution :=
        { execution with
          status := .completed
          output := some output
          completedAt := some t }
      (st.setStep workflowId stepName updated, some updated)

/-- Source `recordStepFailure`: returns the stored record unchanged when it
is already terminal, otherwise transitions it to failed. -/
def recordStepFailure (st : Store) (t : Nat) (workflowId stepName : String)
    (error : StepError) : Store × Option StepExecution :=
  match st.getStep workflowId stepName with
  | none => (st, none)
  | some execution =>
    if isStepTerminal execution.status then (st, some execution)
    else
      let updated : StepExecution :=
        { execution with
          status := .failed
          error := some error
          completedAt := some t }
      (st.setStep workflowId stepName updated, some updated)

/-- Source `getStepExecutions` (group scan). -/
def getStepExecutions (st : Store) (workflowId : String) : List StepExecution :=
  (st.stepsOf workflowId).map Prod.snd

/-- Source `getStepExecution`. -/
def getStepExecution (st : Store) (workflowId stepName : String) :
    Option StepExecution :=
  st.getStep workflowId stepName

/-- Source `markStepCompensated`: no terminal guard; any existing record is
overwritten with status compensated and a fresh `completedAt`. -/
def markStepCompensated (st : Store) (t : Nat) (workflowId stepName : String) :
    Store × Option StepExecution :=
  match st.getStep workflowId stepName with
  | none => (st, none)
  | some execution =>
    let updated : StepExecution :=
      { execution with status := .compensated, completedAt := some t }
    (st.setStep workflowId stepName updated, some updated)

-- ============================================================================
-- Compensation operations (workflow-persistence.ts)
-- ============================================================================

/-- Source `registerCompensation`: idempotent create keyed by step name. -/
def registerCompensation (st : Store) (t : Nat)
    (workflowId stepName compensationStep : String) :
    Store × CompensationRecord :=
  match st.getComp workflowId stepName with
  | some existing => (st, existing)
  | none =>
    let record : CompensationRecord :=
      { workflowId := workflowId, stepName := stepName,
        compensationStep := compensationStep, registeredAt := t,
        executed := false, executedAt := none, result := none, error := none }
    (st.setComp workflowId stepName record, record)

/-- Stable insertion used to model `Array.prototype.sort` (which is stable)
with comparator `(a, b) => b.registeredAt - a.registeredAt`: the inserted
record goes before the first strictly older record. -/
def insertDesc (c : CompensationRecord) :
    List CompensationRecord → List CompensationRecord
  | [] => [c]
  | x :: xs =>
    if x.registeredAt ≤ c.registeredAt then c :: x :: xs
    else x :: insertDesc c xs

/-- Stable sort by `registeredAt` descending, the unique output of any stable
sort under the source comparator. -/
def sortByRegisteredAtDesc : List CompensationRecord → List CompensationRecord
  | [] => []
  | x :: xs => insertDesc x (sortByRegisteredAtDesc xs)

/-- Source `getPendingCompensations`: group scan, filter `executed=false`,
stable sort descending by `registeredAt`. -/
def getPendingCompensations (st : Store) (workflowId : String) :
    List CompensationRecord :=
  sortByRegisteredAtDesc
    (((st.compsOf workflowId).map Prod.snd).filter (fun c => !c.executed))

/-- Source `markCompensationExecuted`: no-op (returning the stored record)
when already executed, otherwise sets the outcome fields. -/
def markCompensationExecuted (st : Store) (t : Nat)
    (workflowId stepName : String) (result : CompResult)
    (error : Option String) : Store × Option CompensationRecord :=
  match st.getComp workflowId stepName with
  | none => (st, none)
  | some record =>
    if record.executed then (st, some record)
    else
      let updated : CompensationRecord :=
        { record with
          executed := true
          executedAt := some t
          result := some result
          error := error }
      (st.setComp workflowId stepName updated, some updated)

/-- Source `getCompensations` (group scan). -/
def getCompensations (st : Store) (workflowId : String) :
    List CompensationRecord :=
  (st.compsOf workflowId).map Prod.snd

-- ============================================================================
-- Workflow registry (src/workflows/registry.ts), modelled as the list of
-- registered definitions
-- ============================================================================

abbrev Registry := List WorkflowDefinition

/-- Source `workflowRegistry.get`. -/
def regGet (reg : Registry) (ty : String) : Option WorkflowDefinition :=
  reg.find? (fun d => d.type == ty)

/-- Source `workflowRegistry.getStep`. -/
def regGetStep (reg : Registry) (ty stepName : String) : Option StepDefinition :=
  (regGet reg ty).bind (fun d => d.steps.find? (fun s => s.name == stepName))

/-- Source `workflowRegistry.getFirstStep`. -/
def regGetFirstStep (reg : Registry) (ty : String) : Option StepDefinition :=
  (regGet reg ty).bind (fun d => d.steps.head?)

/-- Source `workflowRegistry.getNextStep` (`findIndex` returning -1 becomes
`findIdx` returning the length). -/
def regGetNextStep (reg : Registry) (ty cur : String) : Option StepDefinition :=
  match regGet reg ty with
  | none => none
  | some d =>
    let i := d.steps.findIdx (fun s => s.name == cur)
    if i = d.steps.length ∨ i = d.steps.length - 1 then none
    else d.steps[i + 1]?

/-- Source `workflowRegistry.isLastStep`. -/
def regIsLastStep (reg : Registry) (ty stepName : String) : Bool :=
  match regGet reg ty with
  | none => false
  | some d =>
    match d.steps.getLast? with
    | none => false
    | some last => last.name == stepName

/-- Source `findIndex` over a definition's steps (position of a step in the
workflow definition, as referred to by the tie-break language of the spec). -/
def stepIndex (d : WorkflowDefinition) (stepName : String) : Nat :=
  d.steps.findIdx (fun s => s.name == stepName)

-- ============================================================================
-- Events on the bus (engine topics, compensator topics, step dispatch)
-- ============================================================================

inductive Event where
  | executeStep (workflowId stepName : String)
  | stepTopic (topic : String) (workflowId stepName : String) (context : Ctx)
  | stepCompleted (workflowId stepName : String) (output : Ctx)
  | stepFailed (workflowId stepName : String) (error : StepError)
  | compensate (workflowId : String)
  | workflowCompleted (workflowId : String)
  | executeCompensation (workflowId stepName compensationStep : String)
  | compTopic (compensationStep : String) (workflowId originalStep : String)
      (context : Ctx) (originalOutput : Ctx)
  | compensationCompleted (workflowId stepName : String) (success : Bool)
      (error : Option String)
  | compensationFinished (workflowId : String)
deriving Repr, DecidableEq

-- ============================================================================
-- Engine (src/workflows/engine.ts)
-- ============================================================================

/-- Source `startWorkflow`: validates the type, uses the provided id or a
fresh one, returns the existing instance when one is stored (emitting
nothing), otherwise creates the instance and emits execute-step for the
first step.  The thrown errors become `Except.error`. -/
def startWorkflow (reg : Registry) (st : Store) (t : Nat) (ty : String)
    (input : Ctx) (providedId : Option String) (freshId : String) :
    Except String (Store × List Event × String × WorkflowInstance) :=
  match regGet reg ty with
  | none => .error "Unknown workflow type"
  | some _ =>
    match regGetFirstStep reg ty with
    | none => .error "Workflow has no steps defined"
    | some firstStep =>
      let workflowId := providedId.getD freshId
      match st.getWf workflowId with
      | some existing => .ok (st, [], workflowId, existing)
      | none =>
        let r := createWorkflow st t workflowId ty firstStep.name input
        .ok (r.1, [Event.executeStep workflowId firstStep.name], workflowId, r.2)

/-- Source `executeStep`: loads the instance and the step definition (logging
and returning on a miss), records the start idempotently, re-emits the stored
terminal outcome when the record already completed or failed, and otherwise
emits on the step definition's topic. -/
def executeStep (reg : Registry) (st : Store) (t : Nat)
    (workflowId stepName : String) : Store × List Event :=
  match st.getWf workflowId with
  | none => (st, [])
  | some workflow =>
    match regGetStep reg workflow.type stepName with
    | none => (st, [])
    | some stepDef =>
      let r := recordStepStart st t workflowId stepName workflow.context none
      let st1 := r.1
      let execution := r.2.1
      let isNew := r.2.2
      if isNew then
        (st1, [Event.stepTopic stepDef.topic workflowId stepName workflow.context])
      else
        if execution.status = .completed then
          (st1, [Event.stepCompleted workflowId stepName (execution.output.getD [])])
        else if execution.status = .failed then
          (st1, [Event.stepFailed workflowId stepName
            (execution.error.getD { message := "Unknown error" })])
        else
          (st1, [Event.stepTopic stepDef.topic workflowId stepName workflow.context])

/-- Source `handleStepCompleted`: records completion, registers the
compensation when the step definition has one, merges the output into the
context, and either completes the workflow (last step) or advances to the
next step and emits execute-step. -/
def handleStepCompleted (reg : Registry) (st : Store) (t : Nat)
    (workflowId stepName : String) (output : Ctx) : Store × List Event :=
  match st.getWf workflowId with
  | none => (st, [])
  | some workflow =>
    let st1 := (recordStepComplete st t workflowId stepName output).1
    let st2 :=
      match regGetStep reg workflow.type stepName with
      | some stepDef =>
        match stepDef.compensation with
        | some comp => (registerCompensation st1 t workflowId stepName comp).1
        | none => st1
      | none => st1
    let st3 := (updateWorkflowContext st2 t workflowId output).1
    if regIsLastStep reg workflow.type stepName then
      let st4 := (updateWorkflowStatus st3 t workflowId .completed {}).1
      (st4, [Event.workflowCompleted workflowId])
    else
      match regGetNextStep reg workflow.type stepName with
      | none => (st3, [])
      | some nextStep =>
        let st4 := (advanceToStep st3 t workflowId nextStep.name none).1
        (st4, [Event.executeStep workflowId nextStep.name])

/-- Source `handleStepFailed`: records the failure, transitions the workflow
to failed with `failedStep` and `error`, and emits compensate. -/
def handleStepFailed (st : Store) (t : Nat) (workflowId stepName : String)
    (error : StepError) : Store × List Event :=
  let st1 := (recordStepFailure st t workflowId stepName error).1
  let st2 := (updateWorkflowStatus st1 t workflowId .failed
    { failedStep := some stepName, error := some error.message }).1
  (st2, [Event.compensate workflowId])

/-- Source `pauseWorkflow`: unconditionally calls `updateWorkflowStatus`
with status waiting (an empty `waitingFor` string is falsy in JS and passes
no context update). -/
def pauseWorkflow (st : Store) (t : Nat) (workflowId : String)
    (waitingFor : Option String) : Store × Option WorkflowInstance :=
  updateWorkflowStatus st t workflowId .waiting
    { context :=
        match waitingFor with
        | some s => if s = "" then none else some [("_waitingFor", Value.str s)]
        | none => none }

/-- Source `resumeWorkflow`: only a waiting workflow resumes; the signal and
payload are merged into the context and execute-step re-emitted for the
current step. -/
def resumeWorkflow (st : Store) (t : Nat) (workflowId signal : String)
    (payload : Option Ctx) : Store × List Event :=
  match st.getWf workflowId with
  | none => (st, [])
  | some workflow =>
    if workflow.status ≠ .waiting then (st, [])
    else
      let upd := mergeCtx (mergeCtx workflow.context
        [("_lastSignal", Value.str signal)]) (payload.getD [])
      let st1 := (updateWorkflowStatus st t workflowId .running
        { context := some upd }).1
      match workflow.currentStep with
      | some cs => (st1, [Event.executeStep workflowId cs])
      | none => (st1, [])

-- ============================================================================
-- Compensator (src/workflows/compensator.ts)
-- ============================================================================

/-- Source `finishCompensation`: transitions the instance to compensated and
emits compensation-finished. -/
def finishCompensation (st : Store) (t : Nat) (workflowId : String) :
    Store × List Event :=
  let st1 := (updateWorkflowStatus st t workflowId .compensated {}).1
  (st1, [Event.compensationFinished workflowId])

/-- Source `startCompensation`: only failed workflows are compensated; the
instance moves to compensating, and either the chain starts with the head
pending compensation or the compensation finishes immediately. -/
def startCompensation (st : Store) (t : Nat) (workflowId : String) :
    Store × List Event :=
  match st.getWf workflowId with
  | none => (st, [])
  | some workflow =>
    if workflow.status ≠ .failed then (st, [])
    else
      let st1 := (updateWorkflowStatus st t workflowId .compensating {}).1
      match getPendingCompensations st1 workflowId with
      | [] => finishCompensation st1 t workflowId
      | first :: _ =>
        (st1, [Event.executeCompensation workflowId first.stepName
          first.compensationStep])

/-- Source `executeCompensation`: loads the instance and the original step
execution and emits on the compensation topic. -/
def executeCompensation (st : Store) (_t : Nat)
    (workflowId stepName compensationStep : String) : Store × List Event :=
  match st.getWf workflowId with
  | none => (st, [])
  | some workflow =>
    let stepExecution := getStepExecution st workflowId stepName
    (st, [Event.compTopic compensationStep workflowId stepName workflow.context
      ((stepExecution.bind (fun e => e.output)).getD [])])

/-- Source `handleCompensationCompleted`: marks the compensation executed with
the reported result, marks the original step compensated, then either chains
the next pending compensation or finishes. -/
def handleCompensationCompleted (st : Store) (t : Nat)
    (workflowId stepName : String) (success : Bool) (error : Option String) :
    Store × List Event :=
  let st1 := (markCompensationExecuted st t workflowId stepName
    (if success then .success else .failed) error).1
  let st2 := (markStepCompensated st1 t workflowId stepName).1
  match getPendingCompensations st2 workflowId with
  | [] => finishCompensation st2 t workflowId
  | next :: _ =>
    (st2, [Event.executeCompensation workflowId next.stepName
      next.compensationStep])

-- ============================================================================
-- The event-driven system: at-least-once delivery of emitted events to the
-- engine, the compensator and the contract-abiding step handlers
-- ============================================================================

/-- Nondeterministic choice made by an external step or compensation handler
on one invocation (the handler contract: exactly one terminal event). -/
inductive Outcome where
  | nothing
  | stepOk (output : Ctx)
  | stepFail (error : StepError)
  | compDone (success : Bool) (error : Option String)
deriving Repr, DecidableEq

structure Sys where
  store : Store
  emitted : List Event
  time : Nat
deriving Repr, DecidableEq

/-- External stimuli: API calls and (re-)delivery of an already emitted
event.  At-least-once delivery is modelled by never removing an event from
`emitted`, so any emitted event can be delivered again. -/
inductive Action where
  | start (ty : String) (input : Ctx) (workflowId : String)
  | pause (workflowId : String) (waitingFor : Option String)
  | resume (workflowId signal : String) (payload : Option Ctx)
  | deliver (e : Event) (o : Outcome)
deriving Repr, DecidableEq

/-- Dispatch one delivered event to its handler.  Forward step handlers and
compensation handlers are abstracted by the `Outcome` choice, emitting the
terminal event required by the step-handler contract. -/
def dispatch (reg : Registry) (s : Sys) (e : Event) (o : Outcome) :
    Store × List Event :=
  match e with
  | .executeStep wid step => executeStep reg s.store s.time wid step
  | .stepTopic _ wid step _ =>
    match o with
    | .stepOk output => (s.store, [Event.stepCompleted wid step output])
    | .stepFail err => (s.store, [Event.stepFailed wid step err])
    | _ => (s.store, [])
  | .stepCompleted wid step output =>
    handleStepCompleted reg s.store s.time wid step output
  | .stepFailed wid step err => handleStepFailed s.store s.time wid step err
  | .compensate wid => startCompensation s.store s.time wid
  | .workflowCompleted _ => (s.store, [])
  | .executeCompensation wid step comp =>
    executeCompensation s.store s.time wid step comp
  | .compTopic _ wid orig _ _ =>
    match o with
    | .compDone success err =>
      (s.store, [Event.compensationCompleted wid orig success err])
    | _ => (s.store, [])
  | .compensationCompleted wid step success err =>
    handleCompensationCompleted s.store s.time wid step success err
  | .compensationFinished _ => (s.store, [])

/-- One system step. -/
def sysStep (reg : Registry) (s : Sys) (a : Action) : Sys :=
  match a with
  | .start ty input wid =>
    match startWorkflow reg s.store s.time ty input (some wid) wid with
    | .ok r => { store := r.1, emitted := s.emitted ++ r.2.1, time := s.time + 1 }
    | .error _ => s
  | .pause wid waitingFor =>
    let r := pauseWorkflow s.store s.time wid waitingFor
    { store := r.1, emitted := s.emitted, time := s.time + 1 }
  | .resume wid signal payload =>
    let r := resumeWorkflow s.store s.time wid signal payload
    { store := r.1, emitted := s.emitted ++ r.2, time := s.time + 1 }
  | .deliver e o =>
    if e ∈ s.emitted then
      let r := dispatch reg s e o
      { store := r.1, emitted := s.emitted ++ r.2, time := s.time + 1 }
    else s

def initSys : Sys := { store := emptyStore, emitted := [], time := 0 }

/-- Run the system from the empty initial state. -/
def runSys (reg : Registry) (acts : List Action) : Sys :=
  acts.foldl (sysStep reg) initSys

-- ============================================================================
-- Saga invariants over stores
-- ============================================================================

/-- Step execution records exist only for stored workflow instances. -/
def stepsHaveWf (st : Store) : Prop :=
  ∀ wid s ex, st.getStep wid s = some ex → ∃ w, st.getWf wid = some w

/-- Every compensation record belongs to a stored workflow whose step
definition carries exactly the recorded compensation name. -/
def compsConsistent (reg : Registry) (st : Store) : Prop :=
  ∀ wid s rec, st.getComp wid s = some rec →
    ∃ w sd, st.getWf wid = some w ∧ regGetStep reg w.type s = some sd ∧
      sd.compensation = some rec.compensationStep

/-- Every completed step whose definition has a compensation name has a
registered compensation record. -/
def completedHasComp (reg : Registry) (st : Store) : Prop :=
  ∀ wid s ex w sd, st.getStep wid s = some ex → ex.status = .completed →
    st.getWf wid = some w → regGetStep reg w.type s = some sd →
    sd.compensation.isSome → (st.getComp wid s).isSome

/-- The parts of spec invariant 2 that the implementation maintains. -/
def SagaInv (reg : Registry) (st : Store) : Prop :=
  stepsHaveWf st ∧ compsConsistent reg st ∧ completedHasComp reg st

/-- Helper: both stores hold the same workflow ids with the same types. -/
def wfTypesEq (st st' : Store) : Prop :=
  ∀ wid, (st'.getWf wid).map WorkflowInstance.type
    = (st.getWf wid).map WorkflowInstance.type

-- ============================================================================
-- Concrete fixtures used by the counterexamples and witnesses
-- ============================================================================

/-- A workflow instance that already reached the terminal status completed. -/
def wfDone : WorkflowInstance :=
  { id := "w1", type := "OrderWorkflow", status := .completed,
    currentStep := none, context := [], createdAt := 0, updatedAt := 3 }

/-- A store holding only `wfDone`. -/
def storeDone : Store :=
  { workflows := [("w1", wfDone)], stepGroups := [], compGroups := [] }

/-- Two pending compensation records registered in the same millisecond. -/
def recA : CompensationRecord :=
  { workflowId := "w2", stepName := "A", compensationStep := "undoA",
    registeredAt := 7, executed := false }

def recB : CompensationRecord :=
  { workflowId := "w2", stepName := "B", compensationStep := "undoB",
    registeredAt := 7, executed := false }

/-- The workflow definition in which step A precedes step B. -/
def defAB : WorkflowDefinition :=
  { type := "T2",
    steps := [ { name := "A", compensation := some "undoA", topic := "tA" },
               { name := "B", compensation := some "undoB", topic := "tB" } ] }

/-- Store with the records of `recA` and `recB` in registration order. -/
def storeAB : Store :=
  { workflows := [], stepGroups := [],
    compGroups := [("w2", [("A", recA), ("B", recB)])] }

/-- A completed step execution record. -/
def exDone : StepExecution :=
  { workflowId := "w3", stepName := "s", status := .completed, input := [],
    output := some [("k", Value.num 1)], startedAt := 1,
    completedAt := some 2, attempt := 1 }

/-- A store holding only `exDone`. -/
def storeExDone : Store :=
  { workflows := [], stepGroups := [("w3", [("s", exDone)])], compGroups := [] }

/-- A pending (not yet executed) compensation record. -/
def recPending : CompensationRecord :=
  { workflowId := "w5", stepName := "P", compensationStep := "undoP",
    registeredAt := 4, executed := false }

/-- The failed workflow owning `recPending`. -/
def wfFailed : WorkflowInstance :=
  { id := "w5", type := "T5", status := .failed, currentStep := none,
    failedStep := some "P", error := some "boom", context := [],
    createdAt := 0, updatedAt := 4 }

def storePending : Store :=
  { workflows := [("w5", wfFailed)],
    stepGroups := [("w5", [("P",
      { workflowId := "w5", stepName := "P", status := .completed, input := [],
        output := some [], startedAt := 1, completedAt := some 2,
        attempt := 1 })])],
    compGroups := [("w5", [("P", recPending)])] }

/-- A single-step compensable step definition. -/
def sdT : StepDefinition :=
  { name := "s1", compensation := some "c1", topic := "order.s1" }

/-- A workflow type with the single compensable step `sdT`. -/
def wdT : WorkflowDefinition := { type := "T", steps := [sdT] }

/-- Registry holding only `wdT`. -/
def regT : Registry := [wdT]

/-- The instance stored by starting `wdT` on the empty store at time 0. -/
def wfT : WorkflowInstance :=
  { id := "w", type := "T", status := .running, currentStep := some "s1",
    context := [], createdAt := 0, updatedAt := 0 }

/-- The store after that start. -/
def storeT : Store :=
  { workflows := [("w", wfT)], stepGroups := [], compGroups := [] }

/-- A running (non-terminal) step execution record. -/
def exRun : StepExecution :=
  { workflowId := "w6", stepName := "r", status := .running, input := [],
    startedAt := 1, attempt := 1 }

def storeExRun : Store :=
  { workflows := [], stepGroups := [("w6", [("r", exRun)])], compGroups := [] }

def errBoom : StepError := { message := "boom" }

/-- A trace where duplicate at-least-once delivery of the forward dispatch
leads the handler to report failure on the first invocation and success on
the second. -/
def traceC5 : List Action :=
  [ .start "T" [] "w",
    .deliver (.executeStep "w" "s1") .nothing,
    .deliver (.stepTopic "order.s1" "w" "s1" []) (.stepFail errBoom),
    .deliver (.stepFailed "w" "s1" errBoom) .nothing,
    .deliver (.stepTopic "order.s1" "w" "s1" []) (.stepOk []),
    .deliver (.stepCompleted "w" "s1" []) .nothing ]

-- ============================================================================
-- Theorems: association lists and store accessors
-- ============================================================================

theorem Group.get_set {α : Type} (g : List (String × α)) (k k' : String) (v : α) :
    Group.get (Group.set g k v) k' = if k' = k then some v else Group.get g k' := by
  induction g with
  | nil =>
    by_cases h : k' = k
    · subst h
      simp [Group.set, Group.get]
    · have h2 : ¬ k = k' := fun he => h he.symm
      simp [Group.set, Group.get, h, h2]
  | cons head tail ih =>
    obtain ⟨hk, hv⟩ := head
    by_cases h1 : hk = k
    · subst h1
      by_cases h2 : k' = hk
      · subst h2
        simp [Group.set, Group.get]
      · have h3 : ¬ hk = k' := fun he => h2 he.symm
        simp [Group.set, Group.get, h2, h3]
    · by_cases h2 : hk = k'
      · subst h2
        simp [Group.set, Group.get, h1]
      · simp [Group.set, Group.get, h1, h2, ih]

theorem Store.getWf_setWf (st : Store) (wid wid' : String) (w : WorkflowInstance) :
    (st.setWf wid w).getWf wid' = if wid' = wid then some w else st.getWf wid' := by
  simp [Store.getWf, Store.setWf, Group.get_set]

theorem Store.getStep_setWf (st : Store) (wid : String) (w : WorkflowInstance)
    (wid' s' : String) : (st.setWf wid w).getStep wid' s' = st.getStep wid' s' := rfl

theorem Store.getComp_setWf (st : Store) (wid : String) (w : WorkflowInstance)
    (wid' s' : String) : (st.setWf wid w).getComp wid' s' = st.getComp wid' s' := rfl

theorem Store.getWf_setStep (st : Store) (wid s : String) (e : StepExecution)
    (wid' : String) : (st.setStep wid s e).getWf wid' = st.getWf wid' := rfl

theorem Store.getComp_setStep (st : Store) (wid s : String) (e : StepExecution)
    (wid' s' : String) : (st.setStep wid s e).getComp wid' s' = st.getComp wid' s' := rfl

theorem Store.getWf_setComp (st : Store) (wid s : String) (c : CompensationRecord)
    (wid' : String) : (st.setComp wid s c).getWf wid' = st.getWf wid' := rfl

theorem Store.getStep_setComp (st : Store) (wid s : String) (c : CompensationRecord)
    (wid' s' : String) : (st.setComp wid s c).getStep wid' s' = st.getStep wid' s' := rfl

theorem Store.stepsOf_setStep (st : Store) (wid s : String) (e : StepExecution)
    (wid' : String) :
    (st.setStep wid s e).stepsOf wid' =
      if wid' = wid then Group.set (st.stepsOf wid) s e else st.stepsOf wid' := by
  simp only [Store.stepsOf, Store.setStep, Group.get_set]
  by_cases h : wid' = wid <;> simp [h]

theorem Store.getStep_setStep (st : Store) (wid s : String) (e : StepExecution)
    (wid' s' : String) :
    (st.setStep wid s e).getStep wid' s' =
      if wid' = wid ∧ s' = s then some e else st.getStep wid' s' := by
  by_cases h : wid' = wid
  · subst h
    simp [Store.getStep, Store.stepsOf_setStep, Group.get_set]
  · simp [Store.getStep, Store.stepsOf_setStep, h]

theorem Store.compsOf_setComp (st : Store) (wid s : String) (c : CompensationRecord)
    (wid' : String) :
    (st.setComp wid s c).compsOf wid' =
      if wid' = wid then Group.set (st.compsOf wid) s c else st.compsOf wid' := by
  simp only [Store.compsOf, Store.setComp, Group.get_set]
  by_cases h : wid' = wid <;> simp [h]

theorem Store.getComp_setComp (st : Store) (wid s : String) (c : CompensationRecord)
    (wid' s' : String) :
    (st.setComp wid s c).getComp wid' s' =
      if wid' = wid ∧ s' = s then some c else st.getComp wid' s' := by
  by_cases h : wid' = wid
  · subst h
    simp [Store.getComp, Store.compsOf_setComp, Group.get_set]
  · simp [Store.getComp, Store.compsOf_setComp, h]

theorem Store.getWf_congr {st st' : Store} (h : st'.workflows = st.workflows) :
    ∀ wid, st'.getWf wid = st.getWf wid := by
  intro wid
  simp [Store.getWf, h]

theorem Store.getStep_congr {st st' : Store} (h : st'.stepGroups = st.stepGroups) :
    ∀ wid s, st'.getStep wid s = st.getStep wid s := by
  intro wid s
  simp [Store.getStep, Store.stepsOf, h]

theorem Store.getComp_congr {st st' : Store} (h : st'.compGroups = st.compGroups) :
    ∀ wid s, st'.getComp wid s = st.getComp wid s := by
  intro wid s
  simp [Store.getComp, Store.compsOf, h]

theorem getPendingCompensations_congr {st st' : Store}
    (h : st'.compGroups = st.compGroups) :
    ∀ wid, getPendingCompensations st' wid = getPendingCompensations st wid := by
  intro wid
  simp [getPendingCompensations, Store.compsOf, h]

-- ============================================================================
-- Theorems: effect of each persistence operation on the store
-- ============================================================================

theorem updateWorkflowStatus_stepGroups (st : Store) (t : Nat) (wid : String)
    (s : WorkflowStatus) (u : StatusUpdates) :
    (updateWorkflowStatus st t wid s u).1.stepGroups = st.stepGroups := by
  cases h : st.getWf wid <;> simp [updateWorkflowStatus, h, Store.setWf]

theorem updateWorkflowStatus_compGroups (st : Store) (t : Nat) (wid : String)
    (s : WorkflowStatus) (u : StatusUpdates) :
    (updateWorkflowStatus st t wid s u).1.compGroups = st.compGroups := by
  cases h : st.getWf wid <;> simp [updateWorkflowStatus, h, Store.setWf]

theorem updateWorkflowStatus_wfTypesEq (st : Store) (t : Nat) (wid : String)
    (s : WorkflowStatus) (u : StatusUpdates) :
    wfTypesEq st (updateWorkflowStatus st t wid s u).1 := by
  intro wid'
  cases h : st.getWf wid with
  | none => simp [updateWorkflowStatus, h]
  | some w =>
    simp only [updateWorkflowStatus, h]
    rw [Store.getWf_setWf]
    by_cases h2 : wid' = wid
    · subst h2
      simp [h]
    · simp [h2]

theorem updateWorkflowContext_stepGroups (st : Store) (t : Nat) (wid : String)
    (c : Ctx) : (updateWorkflowContext st t wid c).1.stepGroups = st.stepGroups := by
  cases h : st.getWf wid with
  | none => simp [updateWorkflowContext, h]
  | some w =>
    by_cases h2 : isTerminal w.status <;>
      simp [updateWorkflowContext, h, h2, Store.setWf]

theorem updateWorkflowContext_compGroups (st : Store) (t : Nat) (wid : String)
    (c : Ctx) : (updateWorkflowContext st t wid c).1.compGroups = st.compGroups := by
  cases h : st.getWf wid with
  | none => simp [updateWorkflowContext, h]
  | some w =>
    by_cases h2 : isTerminal w.status <;>
      simp [updateWorkflowContext, h, h2, Store.setWf]

theorem updateWorkflowContext_wfTypesEq (st : Store) (t : Nat) (wid : String)
    (c : Ctx) : wfTypesEq st (updateWorkflowContext st t wid c).1 := by
  intro wid'
  cases h : st.getWf wid with
  | none => simp [updateWorkflowContext, h]
  | some w =>
    by_cases h2 : isTerminal w.status
    · simp [updateWorkflowContext, h, h2]
    · by_cases h3 : wid' = wid
      · subst h3
        simp [updateWorkflowContext, h, h2, Store.getWf_setWf]
      · simp [updateWorkflowContext, h, h2, Store.getWf_setWf, h3]

theorem advanceToStep_stepGroups (st : Store) (t : Nat) (wid ns : String)
    (c : Option Ctx) : (advanceToStep st t wid ns c).1.stepGroups = st.stepGroups := by
  cases h : st.getWf wid with
  | none => simp [advanceToStep, h]
  | some w =>
    by_cases h2 : canAdvance w.status <;>
      simp [advanceToStep, h, h2, Store.setWf]

theorem advanceToStep_compGroups (st : Store) (t : Nat) (wid ns : String)
    (c : Option Ctx) : (advanceToStep st t wid ns c).1.compGroups = st.compGroups := by
  cases h : st.getWf wid with
  | none => simp [advanceToStep, h]
  | some w =>
    by_cases h2 : canAdvance w.status <;>
      simp [advanceToStep, h, h2, Store.setWf]

theorem advanceToStep_wfTypesEq (st : Store) (t : Nat) (wid ns : String)
    (c : Option Ctx) : wfTypesEq st (advanceToStep st t wid ns c).1 := by
  intro wid'
  cases h : st.getWf wid with
  | none => simp [advanceToStep, h]
  | some w =>
    by_cases h2 : canAdvance w.status
    · by_cases h3 : wid' = wid
      · subst h3
        simp [advanceToStep, h, h2, Store.getWf_setWf]
      · simp [advanceToStep, h, h2, Store.getWf_setWf, h3]
    · simp [advanceToStep, h, h2]

theorem createWorkflow_getWf (st : Store) (t : Nat) (id ty fs : String) (c : Ctx)
    (wid' : String) :
    (createWorkflow st t id ty fs c).1.getWf wid' =
      if wid' = id then some (createWorkflow st t id ty fs c).2
      else st.getWf wid' := by
  simp [createWorkflow, Store.getWf_setWf]

theorem createWorkflow_stepGroups (st : Store) (t : Nat) (id ty fs : String)
    (c : Ctx) : (createWorkflow st t id ty fs c).1.stepGroups = st.stepGroups := rfl

theorem createWorkflow_compGroups (st : Store) (t : Nat) (id ty fs : String)
    (c : Ctx) : (createWorkflow st t id ty fs c).1.compGroups = st.compGroups := rfl

theorem recordStepStart_workflows (st : Store) (t : Nat) (wid s : String)
    (i : Ctx) (a : Option Nat) :
    (recordStepStart st t wid s i a).1.workflows = st.workflows := by
  cases h : st.getStep wid s <;> simp [recordStepStart, h, Store.setStep]

theorem recordStepStart_compGroups (st : Store) (t : Nat) (wid s : String)
    (i : Ctx) (a : Option Nat) :
    (recordStepStart st t wid s i a).1.compGroups = st.compGroups := by
  cases h : st.getStep wid s <;> simp [recordStepStart, h, Store.setStep]

theorem recordStepStart_getStep (st : Store) (t : Nat) (wid s : String)
    (i : Ctx) (a : Option Nat) (wid' s' : String) :
    (recordStepStart st t wid s i a).1.getStep wid' s' = st.getStep wid' s' ∨
    (wid' = wid ∧ s' = s ∧ st.getStep wid s = none ∧
      (recordStepStart st t wid s i a).1.getStep wid' s' =
        some { workflowId := wid, stepName := s, status := .running, input := i,
               output := none, error := none, startedAt := t,
               completedAt := none, attempt := a.getD 1 }) := by
  cases h : st.getStep wid s with
  | some existing => left
                     simp [recordStepStart, h]
  | none =>
    by_cases h2 : wid' = wid ∧ s' = s
    · right
      obtain ⟨h2a, h2b⟩ := h2
      subst h2a
      subst h2b
      simp [recordStepStart, h, Store.getStep_setStep]
    · left
      simp [recordStepStart, h, Store.getStep_setStep, h2]

theorem recordStepComplete_workflows (st : Store) (t : Nat) (wid s : String)
    (out : Ctx) : (recordStepComplete st t wid s out).1.workflows = st.workflows := by
  cases h : st.getStep wid s with
  | none => simp [recordStepComplete, h]
  | some ex =>
    by_cases h2 : isStepTerminal ex.status <;>
      simp [recordStepComplete, h, h2, Store.setStep]

theorem recordStepComplete_compGroups (st : Store) (t : Nat) (wid s : String)
    (out : Ctx) : (recordStepComplete st t wid s out).1.compGroups = st.compGroups := by
  cases h : st.getStep wid s with
  | none => simp [recordStepComplete, h]
  | some ex =>
    by_cases h2 : isStepTerminal ex.status <;>
      simp [recordStepComplete, h, h2, Store.setStep]

theorem recordStepComplete_getStep (st : Store) (t : Nat) (wid s : String)
    (out : Ctx) (wid' s' : String) :
    (recordStepComplete st t wid s out).1.getStep wid' s' = st.getStep wid' s' ∨
    (wid' = wid ∧ s' = s ∧ ∃ ex, st.getStep wid s = some ex ∧
      isStepTerminal ex.status = false ∧
      (recordStepComplete st t wid s out).1.getStep wid' s' =
        some { ex with status := .completed, output := some out, completedAt := some t }) := by
  cases h : st.getStep wid s with
  | none => left
            simp [recordStepComplete, h]
  | some ex =>
    by_cases h2 : isStepTerminal ex.status
    · left
      simp [recordStepComplete, h, h2]
    · by_cases h3 : wid' = wid ∧ s' = s
      · right
        obtain ⟨h3a, h3b⟩ := h3
        subst h3a
        subst h3b
        refine ⟨rfl, rfl, ex, rfl, by simp [h2], ?_⟩
        simp [recordStepComplete, h, h2, Store.getStep_setStep]
      · left
        simp [recordStepComplete, h, h2, Store.getStep_setStep, h3]

theorem recordStepFailure_workflows (st : Store) (t : Nat) (wid s : String)
    (e : StepError) : (recordStepFailure st t wid s e).1.workflows = st.workflows := by
  cases h : st.getStep wid s with
  | none => simp [recordStepFailure, h]
  | some ex =>
    by_cases h2 : isStepTerminal ex.status <;>
      simp [recordStepFailure, h, h2, Store.setStep]

theorem recordStepFailure_compGroups (st : Store) (t : Nat) (wid s : String)
    (e : StepError) : (recordStepFailure st t wid s e).1.compGroups = st.compGroups := by
  cases h : st.getStep wid s with
  | none => simp [recordStepFailure, h]
  | some ex =>
    by_cases h2 : isStepTerminal ex.status <;>
      simp [recordStepFailure, h, h2, Store.setStep]

theorem recordStepFailure_getStep (st : Store) (t : Nat) (wid s : String)
    (e : StepError) (wid' s' : String) :
    (recordStepFailure st t wid s e).1.getStep wid' s' = st.getStep wid' s' ∨
    (∃ ex, st.getStep wid' s' = some ex ∧
      (recordStepFailure st t wid s e).1.getStep wid' s' =
        some { ex with status := .failed, error := some e, completedAt := some t }) := by
  cases h : st.getStep wid s with
  | none => left
            simp [recordStepFailure, h]
  | some ex =>
    by_cases h2 : isStepTerminal ex.status
    · left
      simp [recordStepFailure, h, h2]
    · by_cases h3 : wid' = wid ∧ s' = s
      · right
        obtain ⟨h3a, h3b⟩ := h3
        subst h3a
        subst h3b
        exact ⟨ex, h, by simp [recordStepFailure, h, h2, Store.getStep_setStep]⟩
      · left
        simp [recordStepFailure, h, h2, Store.getStep_setStep, h3]

theorem markStepCompensated_workflows (st : Store) (t : Nat) (wid s : String) :
    (markStepCompensated st t wid s).1.workflows = st.workflows := by
  cases h : st.getStep wid s <;> simp [markStepCompensated, h, Store.setStep]

theorem markStepCompensated_compGroups (st : Store) (t : Nat) (wid s : String) :
    (markStepCompensated st t wid s).1.compGroups = st.compGroups := by
  cases h : st.getStep wid s <;> simp [markStepCompensated, h, Store.setStep]

theorem markStepCompensated_getStep (st : Store) (t : Nat) (wid s : String)
    (wid' s' : String) :
    (markStepCompensated st t wid s).1.getStep wid' s' = st.getStep wid' s' ∨
    (∃ ex, st.getStep wid' s' = some ex ∧
      (markStepCompensated st t wid s).1.getStep wid' s' =
        some { ex with status := .compensated, completedAt := some t }) := by
  cases h : st.getStep wid s with
  | none => left
            simp [markStepCompensated, h]
  | some ex =>
    by_cases h3 : wid' = wid ∧ s' = s
    · right
      obtain ⟨h3a, h3b⟩ := h3
      subst h3a
      subst h3b
      exact ⟨ex, h, by simp [markStepCompensated, h, Store.getStep_setStep]⟩
    · left
      simp [markStepCompensated, h, Store.getStep_setStep, h3]

theorem registerCompensation_workflows (st : Store) (t : Nat)
    (wid s comp : String) :
    (registerCompensation st t wid s comp).1.workflows = st.workflows := by
  cases h : st.getComp wid s <;> simp [registerCompensation, h, Store.setComp]

theorem registerCompensation_stepGroups (st : Store) (t : Nat)
    (wid s comp : String) :
    (registerCompensation st t wid s comp).1.stepGroups = st.stepGroups := by
  cases h : st.getComp wid s <;> simp [registerCompensation, h, Store.setComp]

theorem registerCompensation_getComp (st : Store) (t : Nat) (wid s comp : String)
    (wid' s' : String) :
    (registerCompensation st t wid s comp).1.getComp wid' s' = st.getComp wid' s' ∨
    (wid' = wid ∧ s' = s ∧ st.getComp wid s = none ∧
      (registerCompensation st t wid s comp).1.getComp wid' s' =
        some { workflowId := wid, stepName := s, compensationStep := comp,
               registeredAt := t, executed := false, executedAt := none,
               result := none, error := none }) := by
  cases h : st.getComp wid s with
  | some existing => left
                     simp [registerCompensation, h]
  | none =>
    by_cases h2 : wid' = wid ∧ s' = s
    · right
      obtain ⟨h2a, h2b⟩ := h2
      subst h2a
      subst h2b
      simp [registerCompensation, h, Store.getComp_setComp]
    · left
      simp [registerCompensation, h, Store.getComp_setComp, h2]

theorem registerCompensation_getComp_self (st : Store) (t : Nat)
    (wid s comp : String) :
    ((registerCompensation st t wid s comp).1.getComp wid s).isSome := by
  cases h : st.getComp wid s with
  | some existing => simp [registerCompensation, h]
  | none => simp [registerCompensation, h, Store.getComp_setComp]

theorem markCompensationExecuted_workflows (st : Store) (t : Nat)
    (wid s : String) (r : CompResult) (e : Option String) :
    (markCompensationExecuted st t wid s r e).1.workflows = st.workflows := by
  cases h : st.getComp wid s with
  | none => simp [markCompensationExecuted, h]
  | some rec =>
    by_cases h2 : rec.executed <;>
      simp [markCompensationExecuted, h, h2, Store.setComp]

theorem markCompensationExecuted_stepGroups (st : Store) (t : Nat)
    (wid s : String) (r : CompResult) (e : Option String) :
    (markCompensationExecuted st t wid s r e).1.stepGroups = st.stepGroups := by
  cases h : st.getComp wid s with
  | none => simp [markCompensationExecuted, h]
  | some rec =>
    by_cases h2 : rec.executed <;>
      simp [markCompensationExecuted, h, h2, Store.setComp]

theorem markCompensationExecuted_getComp (st : Store) (t : Nat)
    (wid s : String) (r : CompResult) (e : Option String) (wid' s' : String) :
    (markCompensationExecuted st t wid s r e).1.getComp wid' s' = st.getComp wid' s' ∨
    (∃ rec, st.getComp wid' s' = some rec ∧
      (markCompensationExecuted st t wid s r e).1.getComp wid' s' =
        some { rec with executed := true, executedAt := some t, result := some r, error := e }) := by
  cases h : st.getComp wid s with
  | none => left
            simp [markCompensationExecuted, h]
  | some rec =>
    by_cases h2 : rec.executed
    · left
      simp [markCompensationExecuted, h, h2]
    · by_cases h3 : wid' = wid ∧ s' = s
      · right
        obtain ⟨h3a, h3b⟩ := h3
        subst h3a
        subst h3b
        exact ⟨rec, h,
          by simp [markCompensationExecuted, h, h2, Store.getComp_setComp]⟩
      · left
        simp [markCompensationExecuted, h, h2, Store.getComp_setComp, h3]

-- ============================================================================
-- Theorems: transfer of the saga invariant along store transformations
-- ============================================================================

theorem sagaInv_of_wfOnly {reg : Registry} {st st' : Store}
    (hsg : st'.stepGroups = st.stepGroups)
    (hcg : st'.compGroups = st.compGroups)
    (hwf : wfTypesEq st st') :
    SagaInv reg st → SagaInv reg st' := by
  rintro ⟨h1, h2, h3⟩
  refine ⟨?_, ?_, ?_⟩
  · intro wid s ex hex
    rw [Store.getStep_congr hsg] at hex
    obtain ⟨w, hw⟩ := h1 wid s ex hex
    have hmap := hwf wid
    rw [hw] at hmap
    cases h : st'.getWf wid with
    | none => rw [h] at hmap
              simp at hmap
    | some w' => exact ⟨w', rfl⟩
  · intro wid s rec hrec
    rw [Store.getComp_congr hcg] at hrec
    obtain ⟨w, sd, hw, hsd, hcompn⟩ := h2 wid s rec hrec
    have hmap := hwf wid
    rw [hw] at hmap
    cases h : st'.getWf wid with
    | none => rw [h] at hmap
              simp at hmap
    | some w' =>
      rw [h] at hmap
      simp only [Option.map_some'] at hmap
      have htype : w'.type = w.type := by
        injection hmap
      exact ⟨w', sd, rfl, by rw [htype]; exact hsd, hcompn⟩
  · intro wid s ex w sd hex hst hw hsd hcs
    rw [Store.getStep_congr hsg] at hex
    rw [Store.getComp_congr hcg]
    have hmap := hwf wid
    rw [hw] at hmap
    cases h : st.getWf wid with
    | none => rw [h] at hmap
              simp at hmap
    | some w0 =>
      rw [h] at hmap
      simp only [Option.map_some'] at hmap
      have htype : w.type = w0.type := by
        injection hmap
      exact h3 wid s ex w0 sd hex hst h (by rw [← htype]; exact hsd) hcs

theorem sagaInv_of_comps {reg : Registry} {st st' : Store}
    (hw : st'.workflows = st.workflows)
    (hsg : st'.stepGroups = st.stepGroups)
    (hfwd : ∀ wid s rec', st'.getComp wid s = some rec' →
      ∃ rec, st.getComp wid s = some rec ∧
        rec'.compensationStep = rec.compensationStep)
    (hmono : ∀ wid s, (st.getComp wid s).isSome → (st'.getComp wid s).isSome) :
    SagaInv reg st → SagaInv reg st' := by
  rintro ⟨h1, h2, h3⟩
  refine ⟨?_, ?_, ?_⟩
  · intro wid s ex hex
    rw [Store.getStep_congr hsg] at hex
    obtain ⟨w, hw2⟩ := h1 wid s ex hex
    exact ⟨w, by rw [Store.getWf_congr hw]; exact hw2⟩
  · intro wid s rec' hrec
    obtain ⟨rec, hrec0, hcs⟩ := hfwd wid s rec' hrec
    obtain ⟨w, sd, hw2, hsd, hc⟩ := h2 wid s rec hrec0
    exact ⟨w, sd, by rw [Store.getWf_congr hw]; exact hw2, hsd,
      by rw [hcs]; exact hc⟩
  · intro wid s ex w sd hex hst hw2 hsd hcs
    rw [Store.getStep_congr hsg] at hex
    rw [Store.getWf_congr hw] at hw2
    exact hmono wid s (h3 wid s ex w sd hex hst hw2 hsd hcs)

theorem sagaInv_of_steps_update {reg : Registry} {st st' : Store}
    (hw : st'.workflows = st.workflows)
    (hcg : st'.compGroups = st.compGroups)
    (hstep : ∀ wid s ex', st'.getStep wid s = some ex' →
      st.getStep wid s = some ex' ∨
      (ex'.status ≠ .completed ∧ ∃ ex, st.getStep wid s = some ex)) :
    SagaInv reg st → SagaInv reg st' := by
  rintro ⟨h1, h2, h3⟩
  refine ⟨?_, ?_, ?_⟩
  · intro wid s ex hex
    rcases hstep wid s ex hex with hold | ⟨_, ex0, hold⟩
    · obtain ⟨w, hw2⟩ := h1 wid s ex hold
      exact ⟨w, by rw [Store.getWf_congr hw]; exact hw2⟩
    · obtain ⟨w, hw2⟩ := h1 wid s ex0 hold
      exact ⟨w, by rw [Store.getWf_congr hw]; exact hw2⟩
  · intro wid s rec hrec
    rw [Store.getComp_congr hcg] at hrec
    obtain ⟨w, sd, hw2, hsd, hc⟩ := h2 wid s rec hrec
    exact ⟨w, sd, by rw [Store.getWf_congr hw]; exact hw2, hsd, hc⟩
  · intro wid s ex w sd hex hst hw2 hsd hcs
    rcases hstep wid s ex hex with hold | ⟨hne, _⟩
    · rw [Store.getComp_congr hcg]
      rw [Store.getWf_congr hw] at hw2
      exact h3 wid s ex w sd hold hst hw2 hsd hcs
    · exact absurd hst hne

theorem sagaInv_of_steps_new {reg : Registry} {st st' : Store} {wid0 s0 : String}
    (hw : st'.workflows = st.workflows)
    (hcg : st'.compGroups = st.compGroups)
    (hwf0 : (st.getWf wid0).isSome)
    (hstep : ∀ wid s ex', st'.getStep wid s = some ex' →
      st.getStep wid s = some ex' ∨ (wid = wid0 ∧ s = s0 ∧ ex'.status ≠ .completed)) :
    SagaInv reg st → SagaInv reg st' := by
  rintro ⟨h1, h2, h3⟩
  refine ⟨?_, ?_, ?_⟩
  · intro wid s ex hex
    rcases hstep wid s ex hex with hold | ⟨hwid, _, _⟩
    · obtain ⟨w, hw2⟩ := h1 wid s ex hold
      exact ⟨w, by rw [Store.getWf_congr hw]; exact hw2⟩
    · subst hwid
      cases h : st.getWf wid with
      | none => rw [h] at hwf0
                simp at hwf0
      | some w => exact ⟨w, by rw [Store.getWf_congr hw]; exact h⟩
  · intro wid s rec hrec
    rw [Store.getComp_congr hcg] at hrec
    obtain ⟨w, sd, hw2, hsd, hc⟩ := h2 wid s rec hrec
    exact ⟨w, sd, by rw [Store.getWf_congr hw]; exact hw2, hsd, hc⟩
  · intro wid s ex w sd hex hst hw2 hsd hcs
    rcases hstep wid s ex hex with hold | ⟨_, _, hne⟩
    · rw [Store.getComp_congr hcg]
      rw [Store.getWf_congr hw] at hw2
      exact h3 wid s ex w sd hold hst hw2 hsd hcs
    · exact absurd hst hne

-- ============================================================================
-- Theorems: the engine and compensator handlers preserve the saga invariant
-- ============================================================================

theorem sagaInv_recordComplete_noComp {reg : Registry} {st : Store} {t : Nat}
    {wid s : String} {out : Ctx} {w : WorkflowInstance}
    (hwf : st.getWf wid = some w)
    (hnosd : ∀ sd, regGetStep reg w.type s = some sd → sd.compensation = none)
    (hinv : SagaInv reg st) :
    SagaInv reg (recordStepComplete st t wid s out).1 := by
  obtain ⟨h1, h2, h3⟩ := hinv
  have hwcongr := Store.getWf_congr (recordStepComplete_workflows st t wid s out)
  have hccongr := Store.getComp_congr (recordStepComplete_compGroups st t wid s out)
  refine ⟨?_, ?_, ?_⟩
  · intro wid' s' ex' hex'
    rcases recordStepComplete_getStep st t wid s out wid' s' with hc | ⟨hw', hs', ex, hold, hterm, hval⟩
    · rw [hc] at hex'
      obtain ⟨w0, hw0⟩ := h1 wid' s' ex' hex'
      exact ⟨w0, by rw [hwcongr]; exact hw0⟩
    · subst hw'
      subst hs'
      exact ⟨w, by rw [hwcongr]; exact hwf⟩
  · intro wid' s' rec hrec
    rw [hccongr] at hrec
    obtain ⟨w0, sd, hw0, hsd0, hc0⟩ := h2 wid' s' rec hrec
    exact ⟨w0, sd, by rw [hwcongr]; exact hw0, hsd0, hc0⟩
  · intro wid' s' ex' w' sd' hex' hst hw' hsd' hcs
    rw [hccongr]
    rw [hwcongr] at hw'
    rcases recordStepComplete_getStep st t wid s out wid' s' with hc | ⟨hww, hss, ex, hold, hterm, hval⟩
    · rw [hc] at hex'
      exact h3 wid' s' ex' w' sd' hex' hst hw' hsd' hcs
    · subst hww
      subst hss
      rw [hwf] at hw'
      injection hw' with hw'
      subst hw'
      have hcn := hnosd sd' hsd'
      rw [hcn] at hcs
      simp at hcs

theorem sagaInv_recordComplete_register {reg : Registry} {st : Store} {t : Nat}
    {wid s : String} {out : Ctx} {comp : String} {w : WorkflowInstance}
    {sd : StepDefinition}
    (hwf : st.getWf wid = some w)
    (hsd : regGetStep reg w.type s = some sd)
    (hcomp : sd.compensation = some comp)
    (hinv : SagaInv reg st) :
    SagaInv reg
      (registerCompensation (recordStepComplete st t wid s out).1 t wid s comp).1 := by
  obtain ⟨h1, h2, h3⟩ := hinv
  have hwc1 := Store.getWf_congr (recordStepComplete_workflows st t wid s out)
  have hcc1 := Store.getComp_congr (recordStepComplete_compGroups st t wid s out)
  have hwc2 := Store.getWf_congr
    (registerCompensation_workflows (recordStepComplete st t wid s out).1 t wid s comp)
  have hsc2 := Store.getStep_congr
    (registerCompensation_stepGroups (recordStepComplete st t wid s out).1 t wid s comp)
  refine ⟨?_, ?_, ?_⟩
  · intro wid' s' ex' hex'
    rw [hsc2] at hex'
    rcases recordStepComplete_getStep st t wid s out wid' s' with hc | ⟨hw', hs', ex, hold, hterm, hval⟩
    · rw [hc] at hex'
      obtain ⟨w0, hw0⟩ := h1 wid' s' ex' hex'
      exact ⟨w0, by rw [hwc2, hwc1]; exact hw0⟩
    · subst hw'
      subst hs'
      exact ⟨w, by rw [hwc2, hwc1]; exact hwf⟩
  · intro wid' s' rec hrec
    rcases registerCompensation_getComp (recordStepComplete st t wid s out).1
        t wid s comp wid' s' with hc | ⟨hw', hs', hnone, hval⟩
    · rw [hc, hcc1] at hrec
      obtain ⟨w0, sd0, hw0, hsd0, hc0⟩ := h2 wid' s' rec hrec
      exact ⟨w0, sd0, by rw [hwc2, hwc1]; exact hw0, hsd0, hc0⟩
    · subst hw'
      subst hs'
      rw [hval] at hrec
      injection hrec with hrec
      refine ⟨w, sd, by rw [hwc2, hwc1]; exact hwf, hsd, ?_⟩
      rw [← hrec]
      rw [hcomp]
  · intro wid' s' ex' w' sd' hex' hst hw' hsd' hcs
    by_cases hkey : wid' = wid ∧ s' = s
    · obtain ⟨hkw, hks⟩ := hkey
      subst hkw
      subst hks
      apply registerCompensation_getComp_self
    · have hcomp2 : (registerCompensation (recordStepComplete st t wid s out).1
          t wid s comp).1.getComp wid' s' = st.getComp wid' s' := by
        rcases registerCompensation_getComp (recordStepComplete st t wid s out).1
            t wid s comp wid' s' with hc | ⟨hw', hs', _, _⟩
        · rw [hc, hcc1]
        · exact absurd ⟨hw', hs'⟩ hkey
      rw [hcomp2]
      rw [hsc2] at hex'
      rw [hwc2, hwc1] at hw'
      rcases recordStepComplete_getStep st t wid s out wid' s' with hc | ⟨hww, hss, _, _, _, _⟩
      · rw [hc] at hex'
        exact h3 wid' s' ex' w' sd' hex' hst hw' hsd' hcs
      · exact absurd ⟨hww, hss⟩ hkey

theorem sagaInv_init (reg : Registry) : SagaInv reg emptyStore := by
  refine ⟨?_, ?_, ?_⟩
  · intro wid s ex hex
    simp [Store.getStep, Store.stepsOf, emptyStore, Group.get] at hex
  · intro wid s rec hrec
    simp [Store.getComp, Store.compsOf, emptyStore, Group.get] at hrec
  · intro wid s ex w sd hex hst hw hsd hcs
    simp [Store.getStep, Store.stepsOf, emptyStore, Group.get] at hex

theorem sagaInv_createWorkflow {reg : Registry} {st : Store} {t : Nat}
    {id ty fs : String} {c : Ctx}
    (hnone : st.getWf id = none) (hinv : SagaInv reg st) :
    SagaInv reg (createWorkflow st t id ty fs c).1 := by
  obtain ⟨h1, h2, h3⟩ := hinv
  have hsg := Store.getStep_congr (createWorkflow_stepGroups st t id ty fs c)
  have hcg := Store.getComp_congr (createWorkflow_compGroups st t id ty fs c)
  refine ⟨?_, ?_, ?_⟩
  · intro wid s ex hex
    rw [hsg] at hex
    obtain ⟨w, hw⟩ := h1 wid s ex hex
    rw [createWorkflow_getWf]
    by_cases h : wid = id
    · exact ⟨(createWorkflow st t id ty fs c).2, by simp [h]⟩
    · rw [if_neg h]
      exact ⟨w, hw⟩
  · intro wid s rec hrec
    rw [hcg] at hrec
    obtain ⟨w, sd, hw, hsd, hc⟩ := h2 wid s rec hrec
    by_cases h : wid = id
    · subst h
      rw [hnone] at hw
      exact absurd hw (by simp)
    · rw [createWorkflow_getWf, if_neg h]
      exact ⟨w, sd, hw, hsd, hc⟩
  · intro wid s ex w sd hex hst hw hsd hcs
    rw [hsg] at hex
    rw [hcg]
    by_cases h : wid = id
    · subst h
      obtain ⟨w0, hw0⟩ := h1 wid s ex hex
      rw [hnone] at hw0
      exact absurd hw0 (by simp)
    · rw [createWorkflow_getWf, if_neg h] at hw
      exact h3 wid s ex w sd hex hst hw hsd hcs

theorem startWorkflow_sagaInv (reg : Registry) (st : Store) (t : Nat)
    (ty : String) (input : Ctx) (pid : Option String) (fresh : String)
    (r : Store × List Event × String × WorkflowInstance)
    (hok : startWorkflow reg st t ty input pid fresh = .ok r)
    (hinv : SagaInv reg st) : SagaInv reg r.1 := by
  cases hreg : regGet reg ty with
  | none => simp [startWorkflow, hreg] at hok
  | some d =>
    cases hfs : regGetFirstStep reg ty with
    | none => simp [startWorkflow, hreg, hfs] at hok
    | some firstStep =>
      cases hex : st.getWf (pid.getD fresh) with
      | some existing =>
        simp only [startWorkflow, hreg, hfs, hex, Except.ok.injEq] at hok
        rw [← hok]
        exact hinv
      | none =>
        simp only [startWorkflow, hreg, hfs, hex, Except.ok.injEq] at hok
        rw [← hok]
        exact sagaInv_createWorkflow hex hinv

theorem executeCompensation_store (st : Store) (t : Nat)
    (wid s comp : String) : (executeCompensation st t wid s comp).1 = st := by
  cases h : st.getWf wid <;> simp [executeCompensation, h]

theorem handleStepFailed_sagaInv (reg : Registry) (st : Store) (t : Nat)
    (wid s : String) (e : StepError) (hinv : SagaInv reg st) :
    SagaInv reg (handleStepFailed st t wid s e).1 := by
  have hA : SagaInv reg (recordStepFailure st t wid s e).1 := by
    refine sagaInv_of_steps_update (recordStepFailure_workflows st t wid s e)
      (recordStepFailure_compGroups st t wid s e) ?_ hinv
    intro wid' s' ex' hex'
    rcases recordStepFailure_getStep st t wid s e wid' s' with hc | ⟨ex, hold, hval⟩
    · left
      rw [← hc]
      exact hex'
    · right
      rw [hval] at hex'
      injection hex' with he
      refine ⟨?_, ex, hold⟩
      rw [← he]
      simp
  show SagaInv reg (updateWorkflowStatus (recordStepFailure st t wid s e).1 t wid
    WorkflowStatus.failed { failedStep := some s, error := some e.message }).1
  exact sagaInv_of_wfOnly (updateWorkflowStatus_stepGroups _ _ _ _ _)
    (updateWorkflowStatus_compGroups _ _ _ _ _)
    (updateWorkflowStatus_wfTypesEq _ _ _ _ _) hA

theorem pauseWorkflow_sagaInv (reg : Registry) (st : Store) (t : Nat)
    (wid : String) (waitingFor : Option String) (hinv : SagaInv reg st) :
    SagaInv reg (pauseWorkflow st t wid waitingFor).1 := by
  show SagaInv reg (updateWorkflowStatus st t wid WorkflowStatus.waiting _).1
  exact sagaInv_of_wfOnly (updateWorkflowStatus_stepGroups _ _ _ _ _)
    (updateWorkflowStatus_compGroups _ _ _ _ _)
    (updateWorkflowStatus_wfTypesEq _ _ _ _ _) hinv

theorem resumeWorkflow_sagaInv (reg : Registry) (st : Store) (t : Nat)
    (wid signal : String) (payload : Option Ctx) (hinv : SagaInv reg st) :
    SagaInv reg (resumeWorkflow st t wid signal payload).1 := by
  cases hwf : st.getWf wid with
  | none => simpa [resumeWorkflow, hwf] using hinv
  | some w =>
    by_cases hstat : w.status = WorkflowStatus.waiting
    · have hA : SagaInv reg (updateWorkflowStatus st t wid WorkflowStatus.running
          { context := some (mergeCtx (mergeCtx w.context
            [("_lastSignal", Value.str signal)]) (payload.getD [])) }).1 :=
        sagaInv_of_wfOnly (updateWorkflowStatus_stepGroups _ _ _ _ _)
          (updateWorkflowStatus_compGroups _ _ _ _ _)
          (updateWorkflowStatus_wfTypesEq _ _ _ _ _) hinv
      cases hcs : w.currentStep with
      | some cs => simpa [resumeWorkflow, hwf, hstat, hcs] using hA
      | none => simpa [resumeWorkflow, hwf, hstat, hcs] using hA
    · simpa [resumeWorkflow, hwf, hstat] using hinv

theorem finishCompensation_sagaInv (reg : Registry) (st : Store) (t : Nat)
    (wid : String) (hinv : SagaInv reg st) :
    SagaInv reg (finishCompensation st t wid).1 := by
  show SagaInv reg (updateWorkflowStatus st t wid WorkflowStatus.compensated {}).1
  exact sagaInv_of_wfOnly (updateWorkflowStatus_stepGroups _ _ _ _ _)
    (updateWorkflowStatus_compGroups _ _ _ _ _)
    (updateWorkflowStatus_wfTypesEq _ _ _ _ _) hinv

theorem startCompensation_sagaInv (reg : Registry) (st : Store) (t : Nat)
    (wid : String) (hinv : SagaInv reg st) :
    SagaInv reg (startCompensation st t wid).1 := by
  cases hwf : st.getWf wid with
  | none => simpa [startCompensation, hwf] using hinv
  | some w =>
    by_cases hstat : w.status = WorkflowStatus.failed
    · have hA : SagaInv reg (updateWorkflowStatus st t wid
          WorkflowStatus.compensating {}).1 :=
        sagaInv_of_wfOnly (updateWorkflowStatus_stepGroups _ _ _ _ _)
          (updateWorkflowStatus_compGroups _ _ _ _ _)
          (updateWorkflowStatus_wfTypesEq _ _ _ _ _) hinv
      cases hp : getPendingCompensations (updateWorkflowStatus st t wid
          WorkflowStatus.compensating {}).1 wid with
      | nil =>
        have hB : SagaInv reg (finishCompensation (updateWorkflowStatus st t wid
            WorkflowStatus.compensating {}).1 t wid).1 :=
          finishCompensation_sagaInv reg _ t wid hA
        simpa [startCompensation, hwf, hstat, hp] using hB
      | cons next rest =>
        simpa [startCompensation, hwf, hstat, hp] using hA
    · simpa [startCompensation, hwf, hstat] using hinv

theorem executeStep_sagaInv (reg : Registry) (st : Store) (t : Nat)
    (wid s : String) (hinv : SagaInv reg st) :
    SagaInv reg (executeStep reg st t wid s).1 := by
  cases hwf : st.getWf wid with
  | none => simpa [executeStep, hwf] using hinv
  | some w =>
    cases hsd : regGetStep reg w.type s with
    | none => simpa [executeStep, hwf, hsd] using hinv
    | some sd =>
      have hstore : (executeStep reg st t wid s).1 =
          (recordStepStart st t wid s w.context none).1 := by
        simp only [executeStep, hwf, hsd]
        by_cases h1 : (recordStepStart st t wid s w.context none).2.2
        · simp [h1]
        · by_cases h2 : (recordStepStart st t wid s w.context none).2.1.status
              = StepStatus.completed
          · simp [h1, h2]
          · by_cases h3 : (recordStepStart st t wid s w.context none).2.1.status
                = StepStatus.failed
            · simp [h1, h2, h3]
            · simp [h1, h2, h3]
      rw [hstore]
      refine @sagaInv_of_steps_new reg st _ wid s
        (recordStepStart_workflows st t wid s w.context none)
        (recordStepStart_compGroups st t wid s w.context none) ?_ ?_ hinv
      · rw [hwf]
        simp
      · intro wid' s' ex' hex'
        rcases recordStepStart_getStep st t wid s w.context none wid' s' with
          hc | ⟨hw', hs', hnone, hval⟩
        · left
          rw [← hc]
          exact hex'
        · right
          refine ⟨hw', hs', ?_⟩
          rw [hval] at hex'
          injection hex' with he
          rw [← he]
          simp

theorem handleStepCompleted_sagaInv (reg : Registry) (st : Store) (t : Nat)
    (wid s : String) (out : Ctx) (hinv : SagaInv reg st) :
    SagaInv reg (handleStepCompleted reg st t wid s out).1 := by
  cases hwf : st.getWf wid with
  | none => simpa [handleStepCompleted, hwf] using hinv
  | some w =>
    have hmid : ∀ st2 : Store, SagaInv reg st2 →
        SagaInv reg ((if regIsLastStep reg w.type s then
          ((updateWorkflowStatus (updateWorkflowContext st2 t wid out).1 t wid
            WorkflowStatus.completed {}).1, [Event.workflowCompleted wid])
        else
          match regGetNextStep reg w.type s with
          | none => ((updateWorkflowContext st2 t wid out).1, [])
          | some nextStep =>
            ((advanceToStep (updateWorkflowContext st2 t wid out).1 t wid
              nextStep.name none).1,
             [Event.executeStep wid nextStep.name])) : Store × List Event).1 := by
      intro st2 h2
      have h3 : SagaInv reg (updateWorkflowContext st2 t wid out).1 :=
        sagaInv_of_wfOnly (updateWorkflowContext_stepGroups _ _ _ _)
          (updateWorkflowContext_compGroups _ _ _ _)
          (updateWorkflowContext_wfTypesEq _ _ _ _) h2
      by_cases hlast : regIsLastStep reg w.type s
      · simp only [hlast, if_true]
        exact sagaInv_of_wfOnly (updateWorkflowStatus_stepGroups _ _ _ _ _)
          (updateWorkflowStatus_compGroups _ _ _ _ _)
          (updateWorkflowStatus_wfTypesEq _ _ _ _ _) h3
      · simp only [hlast, if_false]
        cases hnext : regGetNextStep reg w.type s with
        | none => exact h3
        | some nextStep =>
          exact sagaInv_of_wfOnly (advanceToStep_stepGroups _ _ _ _ _)
            (advanceToStep_compGroups _ _ _ _ _)
            (advanceToStep_wfTypesEq _ _ _ _ _) h3
    cases hsd : regGetStep reg w.type s with
    | none =>
      have h2 : SagaInv reg (recordStepComplete st t wid s out).1 :=
        sagaInv_recordComplete_noComp hwf
          (fun sd hsd2 => absurd hsd2 (by rw [hsd]; simp)) hinv
      have := hmid (recordStepComplete st t wid s out).1 h2
      simpa [handleStepCompleted, hwf, hsd] using this
    | some sd =>
      cases hcomp : sd.compensation with
      | none =>
        have h2 : SagaInv reg (recordStepComplete st t wid s out).1 := by
          refine sagaInv_recordComplete_noComp hwf ?_ hinv
          intro sd2 hsd2
          rw [hsd] at hsd2
          injection hsd2 with hsd2
          rw [← hsd2]
          exact hcomp
        have := hmid (recordStepComplete st t wid s out).1 h2
        simpa [handleStepCompleted, hwf, hsd, hcomp] using this
      | some comp =>
        have h2 : SagaInv reg (registerCompensation
            (recordStepComplete st t wid s out).1 t wid s comp).1 :=
          sagaInv_recordComplete_register hwf hsd hcomp hinv
        have := hmid (registerCompensation
          (recordStepComplete st t wid s out).1 t wid s comp).1 h2
        simpa [handleStepCompleted, hwf, hsd, hcomp] using this

theorem handleCompensationCompleted_sagaInv (reg : Registry) (st : Store)
    (t : Nat) (wid s : String) (success : Bool) (err : Option String)
    (hinv : SagaInv reg st) :
    SagaInv reg (handleCompensationCompleted st t wid s success err).1 := by
  have hA : SagaInv reg (markCompensationExecuted st t wid s
      (if success then CompResult.success else CompResult.failed) err).1 := by
    refine sagaInv_of_comps
      (markCompensationExecuted_workflows st t wid s
        (if success then CompResult.success else CompResult.failed) err)
      (markCompensationExecuted_stepGroups st t wid s
        (if success then CompResult.success else CompResult.failed) err) ?_ ?_ hinv
    · intro wid' s' rec' hrec'
      rcases markCompensationExecuted_getComp st t wid s
          (if success then CompResult.success else CompResult.failed) err wid' s' with
        hc | ⟨rec, hold, hval⟩
      · rw [hc] at hrec'
        exact ⟨rec', hrec', rfl⟩
      · rw [hval] at hrec'
        injection hrec' with he
        exact ⟨rec, hold, by rw [← he]⟩
    · intro wid' s' hsome
      rcases markCompensationExecuted_getComp st t wid s
          (if success then CompResult.success else CompResult.failed) err wid' s' with
        hc | ⟨rec, hold, hval⟩
      · rw [hc]
        exact hsome
      · rw [hval]
        simp
  have hB : SagaInv reg (markStepCompensated (markCompensationExecuted st t wid s
      (if success then CompResult.success else CompResult.failed) err).1 t wid s).1 := by
    refine sagaInv_of_steps_update (markStepCompensated_workflows _ t wid s)
      (markStepCompensated_compGroups _ t wid s) ?_ hA
    intro wid' s' ex' hex'
    rcases markStepCompensated_getStep _ t wid s wid' s' with hc | ⟨ex, hold, hval⟩
    · left
      rw [← hc]
      exact hex'
    · right
      rw [hval] at hex'
      injection hex' with he
      refine ⟨?_, ex, hold⟩
      rw [← he]
      simp
  cases hp : getPendingCompensations (markStepCompensated
      (markCompensationExecuted st t wid s
        (if success then CompResult.success else CompResult.failed) err).1
      t wid s).1 wid with
  | nil =>
    have hC := finishCompensation_sagaInv reg _ t wid hB
    simpa [handleCompensationCompleted, hp] using hC
  | cons next rest =>
    simpa [handleCompensationCompleted, hp] using hB

theorem sysStep_sagaInv (reg : Registry) (s : Sys) (a : Action)
    (hinv : SagaInv reg s.store) : SagaInv reg (sysStep reg s a).store := by
  cases a with
  | start ty input wid =>
    cases hok : startWorkflow reg s.store s.time ty input (some wid) wid with
    | ok r =>
      have := startWorkflow_sagaInv reg s.store s.time ty input (some wid) wid r
        hok hinv
      simpa [sysStep, hok] using this
    | error msg => simpa [sysStep, hok] using hinv
  | pause wid waitingFor =>
    have := pauseWorkflow_sagaInv reg s.store s.time wid waitingFor hinv
    simpa [sysStep] using this
  | resume wid signal payload =>
    have := resumeWorkflow_sagaInv reg s.store s.time wid signal payload hinv
    simpa [sysStep] using this
  | deliver e o =>
    by_cases hmem : e ∈ s.emitted
    · have hd : SagaInv reg (dispatch reg s e o).1 := by
        cases e with
        | executeStep wid step => exact executeStep_sagaInv reg s.store s.time wid step hinv
        | stepTopic topic wid step ctx =>
          cases o <;> simpa [dispatch] using hinv
        | stepCompleted wid step output =>
          exact handleStepCompleted_sagaInv reg s.store s.time wid step output hinv
        | stepFailed wid step err =>
          exact handleStepFailed_sagaInv reg s.store s.time wid step err hinv
        | compensate wid => exact startCompensation_sagaInv reg s.store s.time wid hinv
        | workflowCompleted wid => simpa [dispatch] using hinv
        | executeCompensation wid step comp =>
          rw [show (dispatch reg s (.executeCompensation wid step comp) o).1
            = (executeCompensation s.store s.time wid step comp).1 from rfl]
          rw [executeCompensation_store]
          exact hinv
        | compTopic comp wid orig ctx origOut =>
          cases o <;> simpa [dispatch] using hinv
        | compensationCompleted wid step success err =>
          exact handleCompensationCompleted_sagaInv reg s.store s.time wid step
            success err hinv
        | compensationFinished wid => simpa [dispatch] using hinv
      simpa [sysStep, hmem] using hd
    · simpa [sysStep, hmem] using hinv

theorem runSys_sagaInv (reg : Registry) (acts : List Action) :
    SagaInv reg (runSys reg acts).store := by
  suffices h : ∀ s0 : Sys, SagaInv reg s0.store →
      SagaInv reg (acts.foldl (sysStep reg) s0).store by
    exact h initSys (sagaInv_init reg)
  induction acts with
  | nil => intro s0 h0
           exact h0
  | cons a rest ih =>
    intro s0 h0
    exact ih _ (sysStep_sagaInv reg s0 a h0)

-- ============================================================================
-- Theorems: the stable descending sort of getPendingCompensations
-- ============================================================================

theorem mem_insertDesc (c : CompensationRecord) (l : List CompensationRecord)
    (x : CompensationRecord) : x ∈ insertDesc c l ↔ x = c ∨ x ∈ l := by
  induction l with
  | nil => simp [insertDesc]
  | cons y ys ih =>
    by_cases h : y.registeredAt ≤ c.registeredAt
    · simp [insertDesc, h]
    · simp only [insertDesc, if_neg h, List.mem_cons, ih]
      tauto

theorem insertDesc_perm (c : CompensationRecord) (l : List CompensationRecord) :
    List.Perm (insertDesc c l) (c :: l) := by
  induction l with
  | nil => rfl
  | cons y ys ih =>
    by_cases h : y.registeredAt ≤ c.registeredAt
    · simp [insertDesc, h]
    · simp only [insertDesc, if_neg h]
      exact (ih.cons y).trans (List.Perm.swap c y ys)

theorem pairwise_insertDesc {c : CompensationRecord} {l : List CompensationRecord}
    (h : l.Pairwise (fun a b => b.registeredAt ≤ a.registeredAt)) :
    (insertDesc c l).Pairwise (fun a b => b.registeredAt ≤ a.registeredAt) := by
  induction l with
  | nil => simp [insertDesc]
  | cons x xs ih =>
    rw [List.pairwise_cons] at h
    obtain ⟨hx, hxs⟩ := h
    by_cases hle : x.registeredAt ≤ c.registeredAt
    · rw [insertDesc, if_pos hle]
      refine List.Pairwise.cons ?_ (List.Pairwise.cons hx hxs)
      intro y hy
      rcases List.mem_cons.mp hy with hyx | hyxs
      · rw [hyx]
        exact hle
      · exact le_trans (hx y hyxs) hle
    · rw [insertDesc, if_neg hle]
      refine List.Pairwise.cons ?_ (ih hxs)
      intro y hy
      rcases (mem_insertDesc c xs y).mp hy with hyc | hyxs
      · rw [hyc]
        exact le_of_lt (lt_of_not_le hle)
      · exact hx y hyxs

theorem sortByRegisteredAtDesc_perm (l : List CompensationRecord) :
    List.Perm (sortByRegisteredAtDesc l) l := by
  induction l with
  | nil => rfl
  | cons x xs ih =>
    exact (insertDesc_perm x (sortByRegisteredAtDesc xs)).trans (ih.cons x)

theorem sortByRegisteredAtDesc_pairwise (l : List CompensationRecord) :
    (sortByRegisteredAtDesc l).Pairwise
      (fun a b => b.registeredAt ≤ a.registeredAt) := by
  induction l with
  | nil => simp [sortByRegisteredAtDesc]
  | cons x xs ih => exact pairwise_insertDesc ih

theorem filter_insertDesc (c : CompensationRecord) (l : List CompensationRecord)
    (τ : Nat) :
    (insertDesc c l).filter (fun x => x.registeredAt == τ) =
      (c :: l).filter (fun x => x.registeredAt == τ) := by
  induction l with
  | nil => rfl
  | cons x xs ih =>
    by_cases hle : x.registeredAt ≤ c.registeredAt
    · rw [insertDesc, if_pos hle]
    · rw [insertDesc, if_neg hle]
      by_cases hcτ : c.registeredAt = τ
      · have hxτ : ¬ x.registeredAt = τ := by
          intro hx
          exact hle (le_of_eq (hx.trans hcτ.symm))
        simp only [List.filter_cons, hcτ, hxτ, beq_iff_eq, if_neg, if_pos]
        simp only [ih, List.filter_cons, beq_iff_eq, hcτ, if_pos]
        simp [hxτ]
      · simp only [List.filter_cons, beq_iff_eq, hcτ]
        simp only [ih, List.filter_cons, beq_iff_eq, hcτ]
        simp

theorem filter_sortByRegisteredAtDesc (l : List CompensationRecord) (τ : Nat) :
    (sortByRegisteredAtDesc l).filter (fun x => x.registeredAt == τ) =
      l.filter (fun x => x.registeredAt == τ) := by
  induction l with
  | nil => rfl
  | cons x xs ih =>
    rw [sortByRegisteredAtDesc, filter_insertDesc]
    simp only [List.filter_cons, ih]

theorem updateWorkflowStatus_getWf_self (st : Store) (t : Nat) (wid : String)
    (status : WorkflowStatus) (u : StatusUpdates) (w : WorkflowInstance)
    (h : st.getWf wid = some w) :
    ∃ w', (updateWorkflowStatus st t wid status u).1.getWf wid = some w' ∧
      w'.status = status ∧ w'.id = w.id ∧ w'.type = w.type ∧
      w'.createdAt = w.createdAt := by
  simp only [updateWorkflowStatus, h]
  rw [Store.getWf_setWf, if_pos rfl]
  exact ⟨_, rfl, rfl, rfl, rfl, rfl⟩

-- ============================================================================
-- Claim C1
-- ============================================================================

/-- C1 counterexample: pauseWorkflow — that is, updateWorkflowStatus with
status waiting — on an instance whose status is completed (not running) does
not leave the stored instance unchanged: it stores the instance with status
waiting. -/
theorem claim_C1_cex :
    wfDone.status = WorkflowStatus.completed ∧
    storeDone.getWf "w1" = some wfDone ∧
    ((pauseWorkflow storeDone 5 "w1" none).1.getWf "w1").map WorkflowInstance.status
      = some WorkflowStatus.waiting ∧
    (pauseWorkflow storeDone 5 "w1" none).1.getWf "w1" ≠ some wfDone := by
  decide

/-- C1 amended: updateWorkflowStatus enforces no transition graph — on any
existing instance it stores the requested status unconditionally (in
particular pauseWorkflow sets status waiting from any status, not only from
running); the transition guards live only in updateWorkflowContext (rejecting
terminal instances) and advanceToStep (rejecting non-running instances),
which return null and leave the store unchanged. -/
theorem claim_C1_thm (st : Store) (t : Nat) (wid : String) (w : WorkflowInstance)
    (status : WorkflowStatus) (u : StatusUpdates) (c : Ctx) (ns : String)
    (oc : Option Ctx) (h : st.getWf wid = some w) :
    (∃ w', updateWorkflowStatus st t wid status u = (st.setWf wid w', some w') ∧
      w'.status = status) ∧
    (isTerminal w.status = true → updateWorkflowContext st t wid c = (st, none)) ∧
    (canAdvance w.status = false → advanceToStep st t wid ns oc = (st, none)) := by
  refine ⟨?_, ?_, ?_⟩
  · simp only [updateWorkflowStatus, h]
    exact ⟨_, rfl, rfl⟩
  · intro hterm
    simp [updateWorkflowContext, h, hterm]
  · intro hca
    simp [advanceToStep, h, hca]

/-- C1 witness at a completed instance. -/
theorem claim_C1_witness :
    storeDone.getWf "w1" = some wfDone ∧
    ((∃ w', updateWorkflowStatus storeDone 5 "w1" WorkflowStatus.waiting {} =
        (storeDone.setWf "w1" w', some w') ∧ w'.status = WorkflowStatus.waiting) ∧
     (isTerminal wfDone.status = true →
        updateWorkflowContext storeDone 5 "w1" [] = (storeDone, none)) ∧
     (canAdvance wfDone.status = false →
        advanceToStep storeDone 5 "w1" "n" none = (storeDone, none))) :=
  ⟨by decide, claim_C1_thm storeDone 5 "w1" wfDone WorkflowStatus.waiting {} [] "n"
    none (by decide)⟩

-- ============================================================================
-- Claim C2
-- ============================================================================

/-- C2 counterexample: two pending records registered in the same millisecond
for steps at positions 0 and 1 of the definition come back in stored order
(the record of the EARLIER step first), not with the higher step index first,
so the result is not ordered by step position descending. -/
theorem claim_C2_cex :
    recA.registeredAt = recB.registeredAt ∧
    stepIndex defAB recA.stepName = 0 ∧
    stepIndex defAB recB.stepName = 1 ∧
    getPendingCompensations storeAB "w2" = [recA, recB] ∧
    getPendingCompensations storeAB "w2" ≠ [recB, recA] := by
  decide

/-- C2 amended: getPendingCompensations returns exactly the stored records
with executed=false, sorted by registeredAt descending; the sort is stable,
so records with equal registeredAt keep their stored registration order —
there is no tie-break by step position in the workflow definition. -/
theorem claim_C2_thm (st : Store) (wid : String) :
    List.Perm (getPendingCompensations st wid)
      ((getCompensations st wid).filter (fun c => !c.executed)) ∧
    (getPendingCompensations st wid).Pairwise
      (fun a b => b.registeredAt ≤ a.registeredAt) ∧
    ∀ τ : Nat,
      (getPendingCompensations st wid).filter (fun c => c.registeredAt == τ) =
        ((getCompensations st wid).filter (fun c => !c.executed)).filter
          (fun c => c.registeredAt == τ) :=
  ⟨sortByRegisteredAtDesc_perm _, sortByRegisteredAtDesc_pairwise _,
   fun τ => filter_sortByRegisteredAtDesc _ τ⟩

-- ============================================================================
-- Claim C3
-- ============================================================================

/-- C3 counterexample: markStepCompensated overwrites a record whose status
is terminal (completed), changing its status to compensated. -/
theorem claim_C3_cex :
    storeExDone.getStep "w3" "s" = some exDone ∧
    isStepTerminal exDone.status = true ∧
    ((markStepCompensated storeExDone 9 "w3" "s").1.getStep "w3" "s").map
      StepExecution.status = some StepStatus.compensated ∧
    (markStepCompensated storeExDone 9 "w3" "s").1.getStep "w3" "s" ≠ some exDone := by
  decide

/-- C3 amended: recordStepComplete and recordStepFailure never modify a
record in a terminal status, but markStepCompensated (the operation invoked
by handleCompensationCompleted) carries no terminal guard: it overwrites any
existing record — terminal or not — with status compensated and a fresh
completedAt, so a step's status does transition out of the terminal set. -/
theorem claim_C3_thm (st : Store) (t : Nat) (wid s : String) (e : StepExecution)
    (out : Ctx) (err : StepError) (h : st.getStep wid s = some e) :
    (isStepTerminal e.status = true →
      recordStepComplete st t wid s out = (st, some e) ∧
      recordStepFailure st t wid s err = (st, some e)) ∧
    markStepCompensated st t wid s =
      (st.setStep wid s { e with status := .compensated, completedAt := some t },
       some { e with status := .compensated, completedAt := some t }) := by
  refine ⟨?_, ?_⟩
  · intro hterm
    constructor
    · simp [recordStepComplete, h, hterm]
    · simp [recordStepFailure, h, hterm]
  · simp [markStepCompensated, h]

/-- C3 witness at a completed record. -/
theorem claim_C3_witness :
    storeExDone.getStep "w3" "s" = some exDone ∧
    ((isStepTerminal exDone.status = true →
       recordStepComplete storeExDone 9 "w3" "s" [] = (storeExDone, some exDone) ∧
       recordStepFailure storeExDone 9 "w3" "s" errBoom = (storeExDone, some exDone)) ∧
     markStepCompensated storeExDone 9 "w3" "s" =
       (storeExDone.setStep "w3" "s"
         { exDone with status := .compensated, completedAt := some 9 },
        some { exDone with status := .compensated, completedAt := some 9 })) :=
  ⟨by decide, claim_C3_thm storeExDone 9 "w3" "s" exDone [] errBoom (by decide)⟩

-- ============================================================================
-- Claim C4
-- ============================================================================

/-- C4 counterexample: the persistence operation createWorkflow applies no
does-not-exist guard — invoked at an id that already holds a (completed)
record, it overwrites the stored record with a fresh running instance. -/
theorem claim_C4_cex :
    storeDone.getWf "w1" = some wfDone ∧
    (createWorkflow storeDone 9 "w1" "OrderWorkflow" "first" []).1.getWf "w1"
      ≠ some wfDone ∧
    ((createWorkflow storeDone 9 "w1" "OrderWorkflow" "first" []).1.getWf "w1").map
      WorkflowInstance.status = some WorkflowStatus.running := by
  decide

/-- C4 amended: createWorkflow itself writes unconditionally — even when a
record exists at the id, it stores a fresh instance with status running and
currentStep = firstStep; the does-not-exist guard is applied by the caller
startWorkflow, which returns the existing instance without writing. -/
theorem claim_C4_thm (st : Store) (t : Nat) (id ty fs : String) (c : Ctx)
    (reg : Registry) (input : Ctx) (fresh : String) (w : WorkflowInstance)
    (d : WorkflowDefinition) (sd : StepDefinition)
    (hreg : regGet reg ty = some d) (hfs : regGetFirstStep reg ty = some sd)
    (hex : st.getWf id = some w) :
    (createWorkflow st t id ty fs c).1.getWf id =
      some { id := id, type := ty, status := .running, currentStep := some fs,
             context := c, createdAt := t, updatedAt := t } ∧
    startWorkflow reg st t ty input (some id) fresh = .ok (st, [], id, w) := by
  constructor
  · rw [createWorkflow_getWf]
    simp [createWorkflow]
  · simp only [startWorkflow, hreg, hfs, Option.getD_some, hex]

/-- C4 witness: a completed record at "w1" is overwritten by createWorkflow
but protected by startWorkflow. -/
theorem claim_C4_witness :
    (regGet regT "T" = some wdT ∧ regGetFirstStep regT "T" = some sdT ∧
     storeDone.getWf "w1" = some wfDone) ∧
    ((createWorkflow storeDone 9 "w1" "T" "first" []).1.getWf "w1" =
      some { id := "w1", type := "T", status := .running,
             currentStep := some "first", context := [], createdAt := 9,
             updatedAt := 9 } ∧
     startWorkflow regT storeDone 9 "T" [] (some "w1") "fresh" =
       .ok (storeDone, [], "w1", wfDone)) :=
  ⟨⟨by decide, by decide, by decide⟩,
   claim_C4_thm storeDone 9 "w1" "T" "first" [] regT [] "fresh" wfDone wdT sdT
     (by decide) (by decide) (by decide)⟩

-- ============================================================================
-- Claim C5
-- ============================================================================

/-- C5 counterexample: in the reachable state after `traceC5` (a legal trace
under at-least-once delivery in which the duplicated forward dispatch of step
s1 reports failure first and success on redelivery), a compensation record
exists for (w, s1) although that step's execution is failed and at no point
of the trace ever had status completed or compensated. -/
theorem claim_C5_cex :
    ((runSys regT traceC5).store.getComp "w" "s1").isSome = true ∧
    ((runSys regT traceC5).store.getStep "w" "s1").map StepExecution.status
      = some StepStatus.failed ∧
    (List.range (traceC5.length + 1)).all (fun k =>
      ((runSys regT (traceC5.take k)).store.getStep "w" "s1").map
        StepExecution.status != some StepStatus.completed) = true ∧
    (List.range (traceC5.length + 1)).all (fun k =>
      ((runSys regT (traceC5.take k)).store.getStep "w" "s1").map
        StepExecution.status != some StepStatus.compensated) = true := by
  decide

/-- C5 amended: in every reachable state, every compensation record points at
a stored workflow whose step definition carries exactly the recorded
compensation name, and every completed step execution whose definition has a
compensation name has a registered compensation record; the converse — a
record only for steps that reached completed (or compensated) — does not hold
under duplicate delivery with conflicting handler outcomes. -/
theorem claim_C5_thm (reg : Registry) (acts : List Action) :
    compsConsistent reg (runSys reg acts).store ∧
    completedHasComp reg (runSys reg acts).store :=
  ⟨(runSys_sagaInv reg acts).2.1, (runSys_sagaInv reg acts).2.2⟩

-- ============================================================================
-- Claim C6
-- ============================================================================

/-- C6: recordStepComplete and recordStepFailure return a terminal record
unchanged (store untouched); on a non-terminal record recordStepComplete
stores status completed with output and completedAt, and recordStepFailure
stores status failed with error and completedAt. -/
theorem claim_C6_thm (st : Store) (t : Nat) (wid s : String) (e : StepExecution)
    (out : Ctx) (err : StepError) (h : st.getStep wid s = some e) :
    (isStepTerminal e.status = true →
      recordStepComplete st t wid s out = (st, some e) ∧
      recordStepFailure st t wid s err = (st, some e)) ∧
    (isStepTerminal e.status = false →
      recordStepComplete st t wid s out =
        (st.setStep wid s
          { e with status := .completed, output := some out, completedAt := some t },
         some { e with status := .completed, output := some out, completedAt := some t }) ∧
      recordStepFailure st t wid s err =
        (st.setStep wid s
          { e with status := .failed, error := some err, completedAt := some t },
         some { e with status := .failed, error := some err, completedAt := some t })) := by
  constructor
  · intro hterm
    exact ⟨by simp [recordStepComplete, h, hterm],
           by simp [recordStepFailure, h, hterm]⟩
  · intro hterm
    exact ⟨by simp [recordStepComplete, h, hterm],
           by simp [recordStepFailure, h, hterm]⟩

/-- C6 witness at a running (non-terminal) record. -/
theorem claim_C6_witness :
    storeExRun.getStep "w6" "r" = some exRun ∧
    ((isStepTerminal exRun.status = true →
       recordStepComplete storeExRun 9 "w6" "r" [] = (storeExRun, some exRun) ∧
       recordStepFailure storeExRun 9 "w6" "r" errBoom = (storeExRun, some exRun)) ∧
     (isStepTerminal exRun.status = false →
       recordStepComplete storeExRun 9 "w6" "r" [] =
         (storeExRun.setStep "w6" "r"
           { exRun with status := .completed, output := some [], completedAt := some 9 },
          some { exRun with status := .completed, output := some [], completedAt := some 9 }) ∧
       recordStepFailure storeExRun 9 "w6" "r" errBoom =
         (storeExRun.setStep "w6" "r"
           { exRun with status := .failed, error := some errBoom, completedAt := some 9 },
          some { exRun with status := .failed, error := some errBoom, completedAt := some 9 }))) :=
  ⟨by decide, claim_C6_thm storeExRun 9 "w6" "r" exRun [] errBoom (by decide)⟩

-- ============================================================================
-- Claim C7
-- ============================================================================

/-- C7: when a call to startWorkflow returns an instance at some workflowId,
a second call with that workflowId returns the same instance, leaves the
store exactly as it was, and emits no event (in particular no second
execute-step). -/
theorem claim_C7_thm (reg : Registry) (st : Store) (t1 t2 : Nat) (ty : String)
    (input input2 : Ctx) (pid : Option String) (fresh1 fresh2 : String)
    (st1 : Store) (evs : List Event) (wid : String) (w : WorkflowInstance)
    (h : startWorkflow reg st t1 ty input pid fresh1 = .ok (st1, evs, wid, w)) :
    startWorkflow reg st1 t2 ty input2 (some wid) fresh2 = .ok (st1, [], wid, w) := by
  cases hreg : regGet reg ty with
  | none => simp [startWorkflow, hreg] at h
  | some d =>
    cases hfs : regGetFirstStep reg ty with
    | none => simp [startWorkflow, hreg, hfs] at h
    | some fs =>
      cases hex : st.getWf (pid.getD fresh1) with
      | some existing =>
        simp only [startWorkflow, hreg, hfs, hex, Except.ok.injEq,
          Prod.mk.injEq] at h
        obtain ⟨hst, hevs, hwid, hw⟩ := h
        subst hst
        subst hwid
        subst hw
        simp only [startWorkflow, hreg, hfs, Option.getD_some, hex]
      | none =>
        simp only [startWorkflow, hreg, hfs, hex, Except.ok.injEq,
          Prod.mk.injEq] at h
        obtain ⟨hst, hevs, hwid, hw⟩ := h
        subst hst
        subst hwid
        subst hw
        simp only [startWorkflow, hreg, hfs, Option.getD_some]
        rw [createWorkflow_getWf]
        simp

/-- C7 witness: starting the one-step workflow twice at id "w". -/
theorem claim_C7_witness :
    startWorkflow regT emptyStore 0 "T" [] none "w" =
      .ok (storeT, [Event.executeStep "w" "s1"], "w", wfT) ∧
    startWorkflow regT storeT 1 "T" [] (some "w") "fresh2" =
      .ok (storeT, [], "w", wfT) :=
  ⟨rfl, claim_C7_thm regT emptyStore 0 1 "T" [] [] none "w" "fresh2" storeT
    [Event.executeStep "w" "s1"] "w" wfT rfl⟩

-- ============================================================================
-- Claim C8
-- ============================================================================

/-- C8: delivering compensation-completed with success=false marks the record
executed=true with result=failed but does not stop the chain — when pending
compensations remain the compensator emits execute-compensation for the head
record, and when none remain it emits compensation-finished and transitions
the workflow to status compensated. -/
theorem claim_C8_thm (st : Store) (t : Nat) (wid s : String) (err : Option String)
    (rec : CompensationRecord) (hrec : st.getComp wid s = some rec)
    (hne : rec.executed = false) :
    ((handleCompensationCompleted st t wid s false err).1.getComp wid s =
      some { rec with executed := true, executedAt := some t, result := some CompResult.failed, error := err }) ∧
    (∀ next rest,
      getPendingCompensations (handleCompensationCompleted st t wid s false err).1 wid
        = next :: rest →
      (handleCompensationCompleted st t wid s false err).2 =
        [Event.executeCompensation wid next.stepName next.compensationStep]) ∧
    (getPendingCompensations (handleCompensationCompleted st t wid s false err).1 wid
        = [] →
      (handleCompensationCompleted st t wid s false err).2 =
        [Event.compensationFinished wid] ∧
      ∀ w, st.getWf wid = some w →
        ∃ w', (handleCompensationCompleted st t wid s false err).1.getWf wid = some w' ∧
          w'.status = WorkflowStatus.compensated) := by
  have hifr : (if (false : Bool) then CompResult.success else CompResult.failed)
      = CompResult.failed := rfl
  have h1 : (markCompensationExecuted st t wid s CompResult.failed err).1.getComp wid s
      = some { rec with executed := true, executedAt := some t, result := some CompResult.failed, error := err } := by
    simp [markCompensationExecuted, hrec, hne, Store.getComp_setComp]
  have h2 : (markStepCompensated
      (markCompensationExecuted st t wid s CompResult.failed err).1 t wid s).1.getComp
      wid s = some { rec with executed := true, executedAt := some t, result := some CompResult.failed, error := err } := by
    rw [Store.getComp_congr (markStepCompensated_compGroups
      (markCompensationExecuted st t wid s CompResult.failed err).1 t wid s)]
    exact h1
  cases hp : getPendingCompensations (markStepCompensated
      (markCompensationExecuted st t wid s CompResult.failed err).1 t wid s).1 wid with
  | nil =>
    have hb : handleCompensationCompleted st t wid s false err =
        ((updateWorkflowStatus (markStepCompensated
          (markCompensationExecuted st t wid s CompResult.failed err).1 t wid s).1
          t wid WorkflowStatus.compensated {}).1,
         [Event.compensationFinished wid]) := by
      simp only [handleCompensationCompleted, hifr, hp, finishCompensation]
    rw [hb]
    refine ⟨?_, ?_, ?_⟩
    · rw [Store.getComp_congr (updateWorkflowStatus_compGroups
        (markStepCompensated (markCompensationExecuted st t wid s
          CompResult.failed err).1 t wid s).1 t wid WorkflowStatus.compensated {})]
      exact h2
    · intro next rest hcontra
      rw [getPendingCompensations_congr (updateWorkflowStatus_compGroups
        (markStepCompensated (markCompensationExecuted st t wid s
          CompResult.failed err).1 t wid s).1 t wid WorkflowStatus.compensated {})]
        at hcontra
      rw [hp] at hcontra
      exact absurd hcontra (by simp)
    · intro _
      refine ⟨rfl, ?_⟩
      intro w hw
      have hw1 : (markCompensationExecuted st t wid s CompResult.failed err).1.getWf
          wid = some w := by
        rw [Store.getWf_congr (markCompensationExecuted_workflows st t wid s
          CompResult.failed err)]
        exact hw
      have hw2 : (markStepCompensated (markCompensationExecuted st t wid s
          CompResult.failed err).1 t wid s).1.getWf wid = some w := by
        rw [Store.getWf_congr (markStepCompensated_workflows
          (markCompensationExecuted st t wid s CompResult.failed err).1 t wid s)]
        exact hw1
      obtain ⟨w', hw', hstat, _, _, _⟩ := updateWorkflowStatus_getWf_self
        (markStepCompensated (markCompensationExecuted st t wid s
          CompResult.failed err).1 t wid s).1 t wid WorkflowStatus.compensated {} w hw2
      exact ⟨w', hw', hstat⟩
  | cons next rest =>
    have hb : handleCompensationCompleted st t wid s false err =
        ((markStepCompensated
          (markCompensationExecuted st t wid s CompResult.failed err).1 t wid s).1,
         [Event.executeCompensation wid next.stepName next.compensationStep]) := by
      simp only [handleCompensationCompleted, hifr, hp]
    rw [hb]
    refine ⟨h2, ?_, ?_⟩
    · intro next' rest' hps
      rw [hp] at hps
      injection hps with hn hr
      rw [hn]
    · intro hcontra
      rw [hp] at hcontra
      exact absurd hcontra (by simp)

/-- C8 witness: a failed compensation report on the single pending record of
`storePending` empties the chain and finishes compensation. -/
theorem claim_C8_witness :
    (storePending.getComp "w5" "P" = some recPending ∧
     recPending.executed = false) ∧
    (((handleCompensationCompleted storePending 8 "w5" "P" false
        (some "refund rejected")).1.getComp "w5" "P" =
      some { recPending with executed := true, executedAt := some 8, result := some CompResult.failed, error := some "refund rejected" }) ∧
    (∀ next rest,
      getPendingCompensations (handleCompensationCompleted storePending 8 "w5" "P"
        false (some "refund rejected")).1 "w5" = next :: rest →
      (handleCompensationCompleted storePending 8 "w5" "P" false
        (some "refund rejected")).2 =
        [Event.executeCompensation "w5" next.stepName next.compensationStep]) ∧
    (getPendingCompensations (handleCompensationCompleted storePending 8 "w5" "P"
        false (some "refund rejected")).1 "w5" = [] →
      (handleCompensationCompleted storePending 8 "w5" "P" false
        (some "refund rejected")).2 = [Event.compensationFinished "w5"] ∧
      ∀ w, storePending.getWf "w5" = some w →
        ∃ w', (handleCompensationCompleted storePending 8 "w5" "P" false
          (some "refund rejected")).1.getWf "w5" = some w' ∧
          w'.status = WorkflowStatus.compensated)) :=
  ⟨⟨by decide, by decide⟩,
   claim_C8_thm storePending 8 "w5" "P" (some "refund rejected") recPending
     (by decide) (by decide)⟩

-- ============================================================================
-- Claim C9 (markCompensationExecuted idempotence)
-- ============================================================================

/-- C9: a first markCompensationExecuted on a pending record stores it with
executed=true and the reported outcome; a second application (as on duplicate
delivery of the same compensation-completed event) leaves the store unchanged
and returns the first outcome — executed, executedAt, result and error keep
the first event's values. -/
theorem claim_C9_thm (st : Store) (t1 t2 : Nat) (wid s : String)
    (r1 r2 : CompResult) (e1 e2 : Option String) (rec : CompensationRecord)
    (hrec : st.getComp wid s = some rec) (hne : rec.executed = false) :
    (markCompensationExecuted st t1 wid s r1 e1).1.getComp wid s =
      some { rec with executed := true, executedAt := some t1, result := some r1, error := e1 } ∧
    markCompensationExecuted (markCompensationExecuted st t1 wid s r1 e1).1
        t2 wid s r2 e2 =
      ((markCompensationExecuted st t1 wid s r1 e1).1,
       some { rec with executed := true, executedAt := some t1, result := some r1, error := e1 }) := by
  have h1 : (markCompensationExecuted st t1 wid s r1 e1).1.getComp wid s =
      some { rec with executed := true, executedAt := some t1, result := some r1, error := e1 } := by
    simp [markCompensationExecuted, hrec, hne, Store.getComp_setComp]
  refine ⟨h1, ?_⟩
  generalize hst1 : (markCompensationExecuted st t1 wid s r1 e1).1 = st1 at h1 ⊢
  simp [markCompensationExecuted, h1]

/-- C9 witness at the pending record of `storePending`. -/
theorem claim_C9_witness :
    (storePending.getComp "w5" "P" = some recPending ∧ recPending.executed = false) ∧
    ((markCompensationExecuted storePending 6 "w5" "P" CompResult.success none).1.getComp
        "w5" "P" =
      some { recPending with executed := true, executedAt := some 6, result := some CompResult.success, error := none } ∧
     markCompensationExecuted
        (markCompensationExecuted storePending 6 "w5" "P" CompResult.success none).1
        7 "w5" "P" CompResult.failed (some "late") =
      ((markCompensationExecuted storePending 6 "w5" "P" CompResult.success none).1,
       some { recPending with executed := true, executedAt := some 6, result := some CompResult.success, error := none })) :=
  ⟨⟨by decide, by decide⟩,
   claim_C9_thm storePending 6 7 "w5" "P" CompResult.success CompResult.failed
     none (some "late") recPending (by decide) (by decide)⟩

-- ============================================================================
-- Claim C10
-- ============================================================================

/-- C10: the three workflow-mutating persistence operations preserve the
stored instance's id, type and createdAt. -/
theorem claim_C10_thm (st : Store) (t : Nat) (wid : String) (w : WorkflowInstance)
    (status : WorkflowStatus) (u : StatusUpdates) (c : Ctx) (ns : String)
    (oc : Option Ctx) (h : st.getWf wid = some w) :
    (∀ w', (updateWorkflowStatus st t wid status u).1.getWf wid = some w' →
      w'.id = w.id ∧ w'.type = w.type ∧ w'.createdAt = w.createdAt) ∧
    (∀ w', (updateWorkflowContext st t wid c).1.getWf wid = some w' →
      w'.id = w.id ∧ w'.type = w.type ∧ w'.createdAt = w.createdAt) ∧
    (∀ w', (advanceToStep st t wid ns oc).1.getWf wid = some w' →
      w'.id = w.id ∧ w'.type = w.type ∧ w'.createdAt = w.createdAt) := by
  refine ⟨?_, ?_, ?_⟩
  · intro w' hw'
    simp only [updateWorkflowStatus, h] at hw'
    rw [Store.getWf_setWf, if_pos rfl] at hw'
    injection hw' with hw'
    subst hw'
    exact ⟨rfl, rfl, rfl⟩
  · intro w' hw'
    by_cases hterm : isTerminal w.status
    · simp [updateWorkflowContext, h, hterm] at hw'
      subst hw'
      exact ⟨rfl, rfl, rfl⟩
    · simp [updateWorkflowContext, h, hterm, Store.getWf_setWf] at hw'
      subst hw'
      exact ⟨rfl, rfl, rfl⟩
  · intro w' hw'
    by_cases hca : canAdvance w.status
    · simp [advanceToStep, h, hca, Store.getWf_setWf] at hw'
      subst hw'
      exact ⟨rfl, rfl, rfl⟩
    · simp [advanceToStep, h, hca] at hw'
      subst hw'
      exact ⟨rfl, rfl, rfl⟩

/-- C10 witness at the completed instance of `storeDone`. -/
theorem claim_C10_witness :
    storeDone.getWf "w1" = some wfDone ∧
    ((∀ w', (updateWorkflowStatus storeDone 5 "w1" WorkflowStatus.compensating
        {}).1.getWf "w1" = some w' →
      w'.id = wfDone.id ∧ w'.type = wfDone.type ∧ w'.createdAt = wfDone.createdAt) ∧
     (∀ w', (updateWorkflowContext storeDone 5 "w1" []).1.getWf "w1" = some w' →
      w'.id = wfDone.id ∧ w'.type = wfDone.type ∧ w'.createdAt = wfDone.createdAt) ∧
     (∀ w', (advanceToStep storeDone 5 "w1" "n" none).1.getWf "w1" = some w' →
      w'.id = wfDone.id ∧ w'.type = wfDone.type ∧ w'.createdAt = wfDone.createdAt)) :=
  ⟨by decide, claim_C10_thm storeDone 5 "w1" wfDone WorkflowStatus.compensating
    {} [] "n" none (by decide)⟩

end FlowForge
